import Mathlib

/-!
Verification of the MSAL.js authentication cache and authority trust engine.

The development shallowly embeds `BrowserCacheManager` (browser cache for the
seven persisted entity kinds and the temporary request-correlation cache) and
`Authority` (trust validation and OpenID endpoint discovery).

Modelling conventions:
* Browser storage (`localStorage`/`sessionStorage`) and the cookie side channel
  are association lists from string keys to string values.
* `JSON.parse`/`JSON.stringify` are JavaScript builtins, modelled here for the
  value shapes the cache reads and writes: JSON objects whose members are
  strings.  `validateAndParseJson` additionally rejects every successfully
  parsed non-object value (`typeof` check in the source), so collapsing
  non-object JSON values into parse failure is observationally faithful at
  every call site of the parser.
* Library code of `@azure/msal-common` that is not part of the source tree
  (entity key derivation, entity validation predicates, `ProtocolUtils`,
  `TrustedAuthority`, `UrlString`, `StringUtils`) is modelled from the spec;
  each such definition carries a doc comment saying so.
* Thrown JavaScript errors are modelled with `Option`/`Except`.
-/

/-- A JavaScript object as its list of own enumerable string-valued fields,
in insertion order.  This is the value shape every cache entity serializes to. -/
abbrev JsonObj := List (String × String)

/-- JSON whitespace characters. -/
def isJsonWs (c : Char) : Bool :=
  c = ' ' || c = '\t' || c = '\n' || c = '\r'

/-- Skip leading JSON whitespace. -/
def skipWs : List Char → List Char
  | [] => []
  | c :: rest => if isJsonWs c then skipWs rest else c :: rest

/-- Value of one hexadecimal digit. -/
def hexVal (c : Char) : Option Nat :=
  if '0' ≤ c ∧ c ≤ '9' then some (c.toNat - 48)
  else if 'a' ≤ c ∧ c ≤ 'f' then some (c.toNat - 87)
  else if 'A' ≤ c ∧ c ≤ 'F' then some (c.toNat - 55)
  else none

/-- Parse the body of a JSON string literal after the opening quote; returns
the decoded characters and the input remaining after the closing quote. -/
def parseStrBody : List Char → Option (List Char × List Char)
  | [] => none
  | c :: rest =>
    if c = '"' then some ([], rest)
    else if c = '\\' then
      match rest with
      | [] => none
      | e :: rest2 =>
        if e = '"' then (parseStrBody rest2).map fun p => ('"' :: p.1, p.2)
        else if e = '\\' then (parseStrBody rest2).map fun p => ('\\' :: p.1, p.2)
        else if e = '/' then (parseStrBody rest2).map fun p => ('/' :: p.1, p.2)
        else if e = 'b' then (parseStrBody rest2).map fun p => (Char.ofNat 8 :: p.1, p.2)
        else if e = 'f' then (parseStrBody rest2).map fun p => (Char.ofNat 12 :: p.1, p.2)
        else if e = 'n' then (parseStrBody rest2).map fun p => ('\n' :: p.1, p.2)
        else if e = 'r' then (parseStrBody rest2).map fun p => ('\r' :: p.1, p.2)
        else if e = 't' then (parseStrBody rest2).map fun p => ('\t' :: p.1, p.2)
        else if e = 'u' then
          match rest2 with
          | h1 :: h2 :: h3 :: h4 :: rest3 =>
            match hexVal h1, hexVal h2, hexVal h3, hexVal h4 with
            | some a, some b, some c2, some d =>
              (parseStrBody rest3).map fun p =>
                (Char.ofNat (((a * 16 + b) * 16 + c2) * 16 + d) :: p.1, p.2)
            | _, _, _, _ => none
          | _ => none
        else none
    else if c.toNat < 32 then none
    else (parseStrBody rest).map fun p => (c :: p.1, p.2)

/-- Parse the member list of a JSON object whose values are string literals,
starting at the first member's opening quote, consuming the closing brace.
`fuel` bounds the number of members. -/
def parseMembers : Nat → List Char → Option (JsonObj × List Char)
  | 0, _ => none
  | Nat.succ fuel, l =>
    match l with
    | '"' :: rest =>
      match parseStrBody rest with
      | none => none
      | some (keyChars, rest1) =>
        match skipWs rest1 with
        | ':' :: rest3 =>
          match skipWs rest3 with
          | '"' :: rest5 =>
            match parseStrBody rest5 with
            | none => none
            | some (valChars, rest6) =>
              match skipWs rest6 with
              | ',' :: rest8 =>
                match parseMembers fuel (skipWs rest8) with
                | none => none
                | some (more, rest9) =>
                  some ((String.mk keyChars, String.mk valChars) :: more, rest9)
              | '}' :: rest8 => some ([(String.mk keyChars, String.mk valChars)], rest8)
              | _ => none
          | _ => none
        | _ => none
    | _ => none

/-- Parse a complete JSON object text (the shapes the cache writes: objects
with string members).  Returns `none` for any other input, which is exactly
how `validateAndParseJson` treats both a parse failure and a parsed
non-object value. -/
def parseJsonObj (s : String) : Option JsonObj :=
  match skipWs s.data with
  | '{' :: rest =>
    match skipWs rest with
    | '}' :: rest2 => if skipWs rest2 = [] then some [] else none
    | rest1 =>
      match parseMembers (rest1.length + 1) rest1 with
      | none => none
      | some (fields, rest2) => if skipWs rest2 = [] then some fields else none
  | _ => none

/-- Encoding of one character inside a JSON string literal, as produced by
`JSON.stringify`. -/
def encodeChar (c : Char) : List Char :=
  if c = '"' then ['\\', '"']
  else if c = '\\' then ['\\', '\\']
  else if c = Char.ofNat 8 then ['\\', 'b']
  else if c = Char.ofNat 12 then ['\\', 'f']
  else if c = '\n' then ['\\', 'n']
  else if c = '\r' then ['\\', 'r']
  else if c = '\t' then ['\\', 't']
  else if c.toNat < 32 then
    ['\\', 'u', '0', '0',
      (if c.toNat / 16 < 10 then Char.ofNat (48 + c.toNat / 16) else Char.ofNat (87 + c.toNat / 16)),
      (if c.toNat % 16 < 10 then Char.ofNat (48 + c.toNat % 16) else Char.ofNat (87 + c.toNat % 16))]
  else [c]

/-- A JSON string literal for `s`, quotes included. -/
def encodeStrChars (s : String) : List Char :=
  '"' :: s.data.foldr (fun c acc => encodeChar c ++ acc) ['"']

/-- The member list of a stringified JSON object. -/
def encodeMembers : JsonObj → List Char
  | [] => []
  | [(k, v)] => encodeStrChars k ++ ':' :: encodeStrChars v
  | (k, v) :: rest => encodeStrChars k ++ ':' :: encodeStrChars v ++ ',' :: encodeMembers rest

/-- `JSON.stringify` of a JavaScript object with string-valued fields. -/
def encodeJsonObj (o : JsonObj) : String :=
  String.mk ('{' :: (encodeMembers o ++ ['}']))

theorem skipWs_cons_of_not_ws {c : Char} (l : List Char) (h : isJsonWs c = false) :
    skipWs (c :: l) = c :: l := by
  simp [skipWs, h]

theorem foldr_encode_append (cs : List Char) (init tail : List Char) :
    (cs.foldr (fun c acc => encodeChar c ++ acc) init) ++ tail
      = cs.foldr (fun c acc => encodeChar c ++ acc) (init ++ tail) := by
  induction cs with
  | nil => rfl
  | cons c cs ih => simp [List.foldr_cons, List.append_assoc, ih]

theorem hexVal_digitChar {n : Nat} (h : n < 16) :
    hexVal (if n < 10 then Char.ofNat (48 + n) else Char.ofNat (87 + n)) = some n := by
  interval_cases n <;> decide

theorem parseStrBody_encodeChar (c : Char) (tail : List Char) (cs rest : List Char)
    (h : parseStrBody tail = some (cs, rest)) :
    parseStrBody (encodeChar c ++ tail) = some (c :: cs, rest) := by
  by_cases h1 : c = '"'
  · subst h1
    rw [show encodeChar '"' = ['\\', '"'] from by decide, List.cons_append,
      List.cons_append, List.nil_append, parseStrBody.eq_def]
    simp +decide [h]
  by_cases h2 : c = '\\'
  · subst h2
    rw [show encodeChar '\\' = ['\\', '\\'] from by decide, List.cons_append,
      List.cons_append, List.nil_append, parseStrBody.eq_def]
    simp +decide [h]
  by_cases h3 : c = Char.ofNat 8
  · subst h3
    rw [show encodeChar (Char.ofNat 8) = ['\\', 'b'] from by decide, List.cons_append,
      List.cons_append, List.nil_append, parseStrBody.eq_def]
    simp +decide [h]
  by_cases h4 : c = Char.ofNat 12
  · subst h4
    rw [show encodeChar (Char.ofNat 12) = ['\\', 'f'] from by decide, List.cons_append,
      List.cons_append, List.nil_append, parseStrBody.eq_def]
    simp +decide [h]
  by_cases h5 : c = '\n'
  · subst h5
    rw [show encodeChar '\n' = ['\\', 'n'] from by decide, List.cons_append,
      List.cons_append, List.nil_append, parseStrBody.eq_def]
    simp +decide [h]
  by_cases h6 : c = '\r'
  · subst h6
    rw [show encodeChar '\r' = ['\\', 'r'] from by decide, List.cons_append,
      List.cons_append, List.nil_append, parseStrBody.eq_def]
    simp +decide [h]
  by_cases h7 : c = '\t'
  · subst h7
    rw [show encodeChar '\t' = ['\\', 't'] from by decide, List.cons_append,
      List.cons_append, List.nil_append, parseStrBody.eq_def]
    simp +decide [h]
  by_cases h8 : c.toNat < 32
  · have hd : hexVal (if c.toNat / 16 < 10 then Char.ofNat (48 + c.toNat / 16)
        else Char.ofNat (87 + c.toNat / 16)) = some (c.toNat / 16) :=
      hexVal_digitChar (by omega)
    have he : hexVal (if c.toNat % 16 < 10 then Char.ofNat (48 + c.toNat % 16)
        else Char.ofNat (87 + c.toNat % 16)) = some (c.toNat % 16) :=
      hexVal_digitChar (Nat.mod_lt _ (by norm_num))
    have harith : ((0 * 16 + 0) * 16 + c.toNat / 16) * 16 + c.toNat % 16 = c.toNat := by
      omega
    simp only [encodeChar, if_neg h1, if_neg h2, if_neg h3, if_neg h4, if_neg h5,
      if_neg h6, if_neg h7, if_pos h8, List.cons_append, List.nil_append]
    rw [parseStrBody.eq_def]
    simp +decide only []
    rw [show hexVal '0' = some 0 from by decide, hd, he]
    have harith2 : c.toNat / 16 * 16 + c.toNat % 16 = c.toNat := by omega
    simp [harith, h, harith2, Char.ofNat_toNat]
  · simp only [encodeChar, if_neg h1, if_neg h2, if_neg h3, if_neg h4, if_neg h5,
      if_neg h6, if_neg h7, if_neg h8, List.cons_append, List.nil_append]
    rw [parseStrBody.eq_def]
    simp only [if_neg h1, if_neg h2, if_neg h8, h]
    rfl

theorem parseStrBody_encode (cs rest : List Char) :
    parseStrBody (cs.foldr (fun c acc => encodeChar c ++ acc) ('"' :: rest))
      = some (cs, rest) := by
  induction cs with
  | nil =>
    rw [List.foldr_nil, parseStrBody.eq_def]
    simp +decide
  | cons c cs ih => exact parseStrBody_encodeChar c _ cs rest ih

theorem mk_data (s : String) : String.mk s.data = s := rfl

theorem skipWs_colon (l : List Char) : skipWs (':' :: l) = ':' :: l :=
  skipWs_cons_of_not_ws l (by decide)

theorem skipWs_quote (l : List Char) : skipWs ('"' :: l) = '"' :: l :=
  skipWs_cons_of_not_ws l (by decide)

theorem skipWs_rbrace (l : List Char) : skipWs ('}' :: l) = '}' :: l :=
  skipWs_cons_of_not_ws l (by decide)

theorem skipWs_comma (l : List Char) : skipWs (',' :: l) = ',' :: l :=
  skipWs_cons_of_not_ws l (by decide)

theorem skipWs_lbrace (l : List Char) : skipWs ('{' :: l) = '{' :: l :=
  skipWs_cons_of_not_ws l (by decide)

theorem encodeStrChars_append (s : String) (t : List Char) :
    encodeStrChars s ++ t = '"' :: s.data.foldr (fun c acc => encodeChar c ++ acc) ('"' :: t) := by
  simp only [encodeStrChars, List.cons_append, foldr_encode_append, List.singleton_append,
    List.nil_append]

theorem encodeMembers_cons_head (p : String × String) (r : JsonObj) :
    ∃ t, encodeMembers (p :: r) = '"' :: t := by
  rcases p with ⟨k, v⟩
  cases r with
  | nil =>
    exact ⟨k.data.foldr (fun c acc => encodeChar c ++ acc) ['"'] ++ ':' :: encodeStrChars v,
      by simp only [encodeMembers, encodeStrChars, List.cons_append]⟩
  | cons p2 r2 =>
    exact ⟨k.data.foldr (fun c acc => encodeChar c ++ acc) ['"']
        ++ ':' :: encodeStrChars v ++ ',' :: encodeMembers (p2 :: r2),
      by simp only [encodeMembers, encodeStrChars, List.cons_append]⟩

theorem parseMembers_encode (fields : JsonObj) (fuel : Nat) (rest : List Char)
    (hne : fields ≠ []) (hfuel : fields.length ≤ fuel) :
    parseMembers fuel (encodeMembers fields ++ '}' :: rest) = some (fields, rest) := by
  induction fields generalizing fuel with
  | nil => exact absurd rfl hne
  | cons p more ih =>
    rcases p with ⟨k, v⟩
    cases fuel with
    | zero => simp at hfuel
    | succ f =>
      cases more with
      | nil =>
        rw [show encodeMembers [(k, v)] = encodeStrChars k ++ ':' :: encodeStrChars v from rfl,
          List.append_assoc, List.cons_append, encodeStrChars_append v ('}' :: rest),
          encodeStrChars_append k, parseMembers.eq_def]
        simp only [parseStrBody_encode, skipWs_colon, skipWs_quote, skipWs_rbrace, mk_data]
      | cons p2 more2 =>
        rw [show encodeMembers ((k, v) :: p2 :: more2)
              = encodeStrChars k ++ ':' :: encodeStrChars v ++ ',' :: encodeMembers (p2 :: more2)
            from rfl]
        obtain ⟨t, ht⟩ := encodeMembers_cons_head p2 more2
        rw [List.append_assoc, List.cons_append, List.append_assoc, List.cons_append,
          encodeStrChars_append v, encodeStrChars_append k, parseMembers.eq_def]
        simp only [parseStrBody_encode, skipWs_colon, skipWs_quote, skipWs_comma, mk_data]
        rw [ht, List.cons_append, skipWs_quote, ← List.cons_append, ← ht,
          ih f (List.cons_ne_nil _ _)
            (by simp only [List.length_cons] at hfuel ⊢; omega)]

theorem length_le_encodeMembers (fields : JsonObj) :
    fields.length ≤ (encodeMembers fields).length := by
  induction fields with
  | nil => simp [encodeMembers]
  | cons p more ih =>
    rcases p with ⟨k, v⟩
    cases more with
    | nil => simp [encodeMembers, encodeStrChars]
    | cons p2 more2 =>
      simp only [encodeMembers, List.length_append, List.length_cons] at ih ⊢
      omega

theorem parseJsonObj_encode (fields : JsonObj) :
    parseJsonObj (encodeJsonObj fields) = some fields := by
  cases fields with
  | nil => decide
  | cons p more =>
    obtain ⟨t, ht⟩ := encodeMembers_cons_head p more
    have hdata : (encodeJsonObj (p :: more)).data
        = '{' :: (encodeMembers (p :: more) ++ ['}']) := rfl
    have hparse : parseMembers (('"' :: (t ++ ['}'])).length + 1)
        (encodeMembers (p :: more) ++ '}' :: ([] : List Char)) = some (p :: more, []) :=
      parseMembers_encode (p :: more) _ [] (List.cons_ne_nil _ _)
        (by
          have h1 := length_le_encodeMembers (p :: more)
          rw [ht] at h1
          simp only [List.length_cons, List.length_append] at h1 ⊢
          omega)
    rw [show encodeMembers (p :: more) ++ '}' :: ([] : List Char)
        = '"' :: (t ++ ['}']) from by rw [ht]; rfl] at hparse
    rw [parseJsonObj, hdata, skipWs_lbrace, ht, List.cons_append]
    simp only [List.length_cons, List.length_append, List.length_nil] at hparse
    simp +decide [skipWs_quote, skipWs, hparse]

theorem parseJsonObj_eq_none_of_head (c : Char) (l : List Char) (s : String)
    (hdata : s.data = c :: l) (hws : isJsonWs c = false) (hc : c ≠ '{') :
    parseJsonObj s = none := by
  rw [parseJsonObj, hdata, skipWs_cons_of_not_ws l hws]
  split
  · rename_i rest heq
    injection heq with h1 _
    exact absurd h1 hc
  · rfl

theorem encodeJsonObj_ne_empty (o : JsonObj) : encodeJsonObj o ≠ "" := by
  intro h
  have h2 := congrArg String.data h
  simp only [encodeJsonObj] at h2
  exact List.cons_ne_nil _ _ h2

/-- An association-list model of one key/value storage medium
(`window.localStorage`/`sessionStorage`, or the cookie jar).  Keys are unique;
`storeSet` overwrites. -/
abbrev Store := List (String × String)

/-- Read a key from a store. -/
def storeGet : Store → String → Option String
  | [], _ => none
  | (k', v) :: rest, k => if k' = k then some v else storeGet rest k

/-- Remove every entry under a key. -/
def storeRemove : Store → String → Store
  | [], _ => []
  | (k', v) :: rest, k =>
    if k' = k then storeRemove rest k else (k', v) :: storeRemove rest k

/-- Overwrite the value under a key. -/
def storeSet (s : Store) (k v : String) : Store :=
  (k, v) :: storeRemove s k

/-- All keys of a store. -/
def storeKeys (s : Store) : List String := s.map (·.1)

/-- Whether a key is present. -/
def storeHasKey (s : Store) (k : String) : Bool := (storeGet s k).isSome

/-- Does `sub` occur inside `hay`?  Models JavaScript
`hay.indexOf(sub) !== -1`. -/
def subOccursIn : List Char → List Char → Bool
  | needle, [] => needle.isEmpty
  | needle, c :: t => needle.isPrefixOf (c :: t) || subOccursIn needle t

/-- String containment test, `str.indexOf(search) !== -1` in the source. -/
def strContains (str search : String) : Bool := subOccursIn search.data str.data

/-- Modelled from the spec: `StringUtils.startsWith` of the shared msal-common
library, `str.indexOf(search) === 0`. -/
def strStartsWith (str search : String) : Bool := search.data.isPrefixOf str.data

/-- Modelled from the spec: `StringUtils.isEmpty` treats a missing value
(`null`/`undefined`) and the empty string as empty. -/
def strIsEmpty : Option String → Bool
  | none => true
  | some s => s = ""

/-- The `CacheOptions` configuration consumed by `BrowserCacheManager`
(the claims only exercise the `storeAuthStateInCookie` switch). -/
structure CacheOptions where
  storeAuthStateInCookie : Bool
deriving DecidableEq, Repr

/-- Static configuration of one `BrowserCacheManager` instance. -/
structure BrowserCacheManager where
  clientId : String
  cacheConfig : CacheOptions
deriving DecidableEq, Repr

/-- Mutable state touched by `BrowserCacheManager`: the window storage and the
cookie side channel (`document.cookie`). -/
structure CacheState where
  browserStorage : Store
  cookies : Store
deriving DecidableEq, Repr

/-- `getItem`: fetches the entry from the browser storage. -/
def getItem (st : CacheState) (key : String) : Option String :=
  storeGet st.browserStorage key

/-- `setItem`: sets the entry in the browser storage. -/
def setItem (st : CacheState) (key value : String) : CacheState :=
  { st with browserStorage := storeSet st.browserStorage key value }

/-- `setItemCookie`: add a value to cookies.  `encodeURIComponent` is a
bijection applied symmetrically on write and read, omitted in the model. -/
def setItemCookie (st : CacheState) (cookieName cookieValue : String) : CacheState :=
  { st with cookies := storeSet st.cookies cookieName cookieValue }

/-- `getItemCookie`: get one item by key from cookies; the source's scan of
`document.cookie` yields the empty string when the cookie is absent. -/
def getItemCookie (st : CacheState) (cookieName : String) : String :=
  (storeGet st.cookies cookieName).getD ""

/-- `clearItemCookie`: writes an empty, expired cookie, which the browser
drops; observably the cookie's value becomes the empty string. -/
def clearItemCookie (st : CacheState) (cookieName : String) : CacheState :=
  setItemCookie st cookieName ""

/-- `removeItem`: removes the cache item, clearing the cookie mirror as well
when `storeAuthStateInCookie` is set. -/
def removeItem (bcm : BrowserCacheManager) (st : CacheState) (key : String) : CacheState :=
  let st1 : CacheState := { st with browserStorage := storeRemove st.browserStorage key }
  if bcm.cacheConfig.storeAuthStateInCookie then clearItemCookie st1 key else st1

/-- `containsKey`: whether the key is in the browser storage. -/
def containsKey (st : CacheState) (key : String) : Bool :=
  storeHasKey st.browserStorage key

/-- `getKeys`: all keys in the window storage. -/
def getKeys (st : CacheState) : List String :=
  storeKeys st.browserStorage

/-- `validateAndParseJson`: parses the value as JSON, returning `null` both
when `JSON.parse` throws and when the parsed value is not a (truthy) object. -/
def validateAndParseJson (jsonValue : String) : Option JsonObj :=
  parseJsonObj jsonValue

/-- Modelled from the spec: `CacheManager.toObject` copies the parsed JSON
fields onto a freshly constructed (fieldless) entity; assigning `null` leaves
the fresh entity unchanged. -/
def toObject (parsed : Option JsonObj) : JsonObj :=
  parsed.getD []

/-- Last-wins field lookup on a JavaScript object (later duplicate JSON keys
override earlier ones). -/
def objGet (o : JsonObj) (name : String) : Option String :=
  (o.reverse.find? (fun p => p.1 == name)).map (·.2)

/-- Field-presence test (`hasOwnProperty`). -/
def objHas (o : JsonObj) (name : String) : Bool :=
  (objGet o name).isSome

/-- Modelled from the spec: `AccountEntity.isAccountEntity` of msal-common
checks presence of the account's identity fields (home account id,
environment, realm) and essential fields (local account id, username,
authority type). -/
def isAccountEntity (o : JsonObj) : Bool :=
  objHas o "homeAccountId" && objHas o "environment" && objHas o "realm" &&
  objHas o "localAccountId" && objHas o "username" && objHas o "authorityType"

/-- Modelled from the spec: `IdTokenEntity.isIdTokenEntity` requires the
credential identity fields, the raw token text, and the IdToken kind tag. -/
def isIdTokenEntity (o : JsonObj) : Bool :=
  objHas o "homeAccountId" && objHas o "environment" && objHas o "clientId" &&
  objHas o "realm" && objHas o "secret" &&
  (objGet o "credentialType" == some "IdToken")

/-- Modelled from the spec: `AccessTokenEntity.isAccessTokenEntity` requires
the credential identity fields, scope target, token text, expiry, extended
expiry and the AccessToken kind tag. -/
def isAccessTokenEntity (o : JsonObj) : Bool :=
  objHas o "homeAccountId" && objHas o "environment" && objHas o "clientId" &&
  objHas o "realm" && objHas o "target" && objHas o "secret" &&
  objHas o "expiresOn" && objHas o "extendedExpiresOn" &&
  (objGet o "credentialType" == some "AccessToken")

/-- Modelled from the spec: `RefreshTokenEntity.isRefreshTokenEntity` requires
the credential identity fields (realm-free), token text and RefreshToken tag. -/
def isRefreshTokenEntity (o : JsonObj) : Bool :=
  objHas o "homeAccountId" && objHas o "environment" && objHas o "clientId" &&
  objHas o "secret" && (objGet o "credentialType" == some "RefreshToken")

/-- Modelled from the spec: `AppMetadataEntity.isAppMetadataEntity` checks the
key carries the app-metadata marker and the entity has its identity fields. -/
def isAppMetadataEntity (key : String) (o : JsonObj) : Bool :=
  strStartsWith key "appmetadata" && objHas o "clientId" && objHas o "environment"

/-- Modelled from the spec: `ServerTelemetryEntity.isServerTelemetryEntity`
checks the key carries the telemetry marker and the entity has its failure
counters and error codes (serialized as strings in this model). -/
def isServerTelemetryEntity (key : String) (o : JsonObj) : Bool :=
  strStartsWith key "server-telemetry" && objHas o "failedRequests" &&
  objHas o "errors" && objHas o "cacheHits"

/-- Modelled from the spec: `ThrottlingEntity.isThrottlingEntity` checks the
key carries the throttling marker and the retry-after timestamp is present. -/
def isThrottlingEntity (key : String) (o : JsonObj) : Bool :=
  strStartsWith key "throttling" && objHas o "throttleTime"

/-- Modelled from the spec: `AccountEntity.generateAccountKey` derives the
account's storage key from its own identity fields
(home-account-id, environment, realm). -/
def generateAccountKey (account : JsonObj) : String :=
  (objGet account "homeAccountId").getD "" ++ "-"
    ++ (objGet account "environment").getD "" ++ "-"
    ++ (objGet account "realm").getD ""

/-- Modelled from the spec: `CredentialEntity.generateCredentialKey` derives a
credential's storage key from home-account-id, environment, credential type,
client id (family id, when present, for refresh tokens), realm and target. -/
def generateCredentialKey (credential : JsonObj) : String :=
  let familyId := (objGet credential "familyId").getD ""
  let clientIdPart := if familyId = "" then (objGet credential "clientId").getD "" else familyId
  (objGet credential "homeAccountId").getD "" ++ "-"
    ++ (objGet credential "environment").getD "" ++ "-"
    ++ (objGet credential "credentialType").getD "" ++ "-"
    ++ clientIdPart ++ "-"
    ++ (objGet credential "realm").getD "" ++ "-"
    ++ (objGet credential "target").getD ""

/-- Modelled from the spec: `AppMetadataEntity.generateAppMetadataKey` derives
the key from the app-metadata marker, environment and client id. -/
def generateAppMetadataKey (appMetadata : JsonObj) : String :=
  "appmetadata-" ++ (objGet appMetadata "environment").getD "" ++ "-"
    ++ (objGet appMetadata "clientId").getD ""

/-- Modelled from the spec: the server telemetry entity has one fixed key per
client. -/
def generateServerTelemetryKey (clientId : String) : String :=
  "server-telemetry-" ++ clientId

/-- Modelled from the spec: the throttling entity is keyed by the hash of the
request shape. -/
def generateThrottlingKey (requestHash : String) : String :=
  "throttling." ++ requestHash

/-- `getAccount`: fetch the account entity from the platform cache. -/
def getAccount (st : CacheState) (accountKey : String) : Option JsonObj :=
  let account := getItem st accountKey
  if strIsEmpty account then none
  else
    let parsedAccount := validateAndParseJson (account.getD "")
    let accountEntity := toObject parsedAccount
    if isAccountEntity accountEntity then some accountEntity else none

/-- `setAccount`: set account entity in the platform cache. -/
def setAccount (st : CacheState) (account : JsonObj) : CacheState :=
  let key := generateAccountKey account
  setItem st key (encodeJsonObj account)

/-- `getIdTokenCredential`: generates idToken entity from a string. -/
def getIdTokenCredential (st : CacheState) (idTokenKey : String) : Option JsonObj :=
  let value := getItem st idTokenKey
  if strIsEmpty value then none
  else
    let parsedIdToken := validateAndParseJson (value.getD "")
    let idToken := toObject parsedIdToken
    if isIdTokenEntity idToken then some idToken else none

/-- `setIdTokenCredential`: set IdToken credential to the platform cache. -/
def setIdTokenCredential (st : CacheState) (idToken : JsonObj) : CacheState :=
  let idTokenKey := generateCredentialKey idToken
  setItem st idTokenKey (encodeJsonObj idToken)

/-- `getAccessTokenCredential`: generates accessToken entity from a string. -/
def getAccessTokenCredential (st : CacheState) (accessTokenKey : String) : Option JsonObj :=
  let value := getItem st accessTokenKey
  if strIsEmpty value then none
  else
    let parsedAccessToken := validateAndParseJson (value.getD "")
    let accessToken := toObject parsedAccessToken
    if isAccessTokenEntity accessToken then some accessToken else none

/-- `setAccessTokenCredential`: set accessToken credential to the platform cache. -/
def setAccessTokenCredential (st : CacheState) (accessToken : JsonObj) : CacheState :=
  let accessTokenKey := generateCredentialKey accessToken
  setItem st accessTokenKey (encodeJsonObj accessToken)

/-- `getRefreshTokenCredential`: generates refreshToken entity from a string. -/
def getRefreshTokenCredential (st : CacheState) (refreshTokenKey : String) : Option JsonObj :=
  let value := getItem st refreshTokenKey
  if strIsEmpty value then none
  else
    let parsedRefreshToken := validateAndParseJson (value.getD "")
    let refreshToken := toObject parsedRefreshToken
    if isRefreshTokenEntity refreshToken then some refreshToken else none

/-- `setRefreshTokenCredential`: set refreshToken credential to the platform cache. -/
def setRefreshTokenCredential (st : CacheState) (refreshToken : JsonObj) : CacheState :=
  let refreshTokenKey := generateCredentialKey refreshToken
  setItem st refreshTokenKey (encodeJsonObj refreshToken)

/-- `getAppMetadata`: fetch appMetadata entity from the platform cache. -/
def getAppMetadata (st : CacheState) (appMetadataKey : String) : Option JsonObj :=
  let value := getItem st appMetadataKey
  if strIsEmpty value then none
  else
    let parsedMetadata := validateAndParseJson (value.getD "")
    let appMetadata := toObject parsedMetadata
    if isAppMetadataEntity appMetadataKey appMetadata then some appMetadata else none

/-- `setAppMetadata`: set appMetadata entity to the platform cache. -/
def setAppMetadata (st : CacheState) (appMetadata : JsonObj) : CacheState :=
  let appMetadataKey := generateAppMetadataKey appMetadata
  setItem st appMetadataKey (encodeJsonObj appMetadata)

/-- `getServerTelemetry`: fetch server telemetry entity from the platform cache. -/
def getServerTelemetry (st : CacheState) (serverTelemetryKey : String) : Option JsonObj :=
  let value := getItem st serverTelemetryKey
  if strIsEmpty value then none
  else
    let parsedMetadata := validateAndParseJson (value.getD "")
    let serverTelemetryEntity := toObject parsedMetadata
    if isServerTelemetryEntity serverTelemetryKey serverTelemetryEntity
    then some serverTelemetryEntity else none

/-- `setServerTelemetry`: set server telemetry entity to the platform cache,
under the caller-supplied key. -/
def setServerTelemetry (st : CacheState) (serverTelemetryKey : String)
    (serverTelemetry : JsonObj) : CacheState :=
  setItem st serverTelemetryKey (encodeJsonObj serverTelemetry)

/-- `getThrottlingCache`: fetch throttling entity from the platform cache. -/
def getThrottlingCache (st : CacheState) (throttlingCacheKey : String) : Option JsonObj :=
  let value := getItem st throttlingCacheKey
  if strIsEmpty value then none
  else
    let parsedThrottlingCache := validateAndParseJson (value.getD "")
    let throttlingCache := toObject parsedThrottlingCache
    if isThrottlingEntity throttlingCacheKey throttlingCache
    then some throttlingCache else none

/-- `setThrottlingCache`: set throttling entity to the platform cache, under
the caller-supplied key. -/
def setThrottlingCache (st : CacheState) (throttlingCacheKey : String)
    (throttlingCache : JsonObj) : CacheState :=
  setItem st throttlingCacheKey (encodeJsonObj throttlingCache)

/-- Modelled from the spec: `Constants.CACHE_PREFIX`, the library cache key
namespace marker (`msal`, per the `<namespace-marker>.<clientId>.<item>` key
layout). -/
def cachePrefixStr : String := "msal"

/-- Modelled from the spec: `PersistentCacheKeys.ADAL_ID_TOKEN`, the legacy
key exempted from re-prefixing. -/
def adalIdTokenKey : String := "adal.idtoken"

/-- `TemporaryCacheKeys.AUTHORITY` (BrowserConstants.ts). -/
def tckAuthority : String := "authority"

/-- `TemporaryCacheKeys.NONCE_IDTOKEN` (BrowserConstants.ts). -/
def tckNonceIdToken : String := "nonce.id_token"

/-- `TemporaryCacheKeys.REQUEST_STATE` (BrowserConstants.ts). -/
def tckRequestState : String := "request.state"

/-- `TemporaryCacheKeys.REQUEST_PARAMS` (BrowserConstants.ts). -/
def tckRequestParams : String := "request.params"

/-- `TemporaryCacheKeys.ORIGIN_URI` (BrowserConstants.ts). -/
def tckOriginUri : String := "request.origin"

/-- `TemporaryCacheKeys.URL_HASH` (BrowserConstants.ts). -/
def tckUrlHash : String := "urlHash"

/-- `TemporaryCacheKeys.INTERACTION_STATUS_KEY` (BrowserConstants.ts). -/
def tckInteractionStatus : String := "interaction.status"

/-- `generateCacheKey`: prepend `msal.<client-id>` to the key unless it is a
JSON object key or already carries the library prefix (or the legacy ADAL
key). -/
def generateCacheKey (bcm : BrowserCacheManager) (key : String) : String :=
  let generatedKey := validateAndParseJson key
  match generatedKey with
  | none =>
    if strStartsWith key cachePrefixStr || strStartsWith key adalIdTokenKey then key
    else cachePrefixStr ++ "." ++ bcm.clientId ++ "." ++ key
  | some _ => String.mk (encodeStrChars key)

/-- `getTemporaryCache`: gets the cache item; when `storeAuthStateInCookie`
is set, a non-empty cookie value is returned before the browser storage is
consulted. -/
def getTemporaryCache (bcm : BrowserCacheManager) (st : CacheState)
    (cacheKey : String) (generateKey : Bool) : Option String :=
  let key := if generateKey then generateCacheKey bcm cacheKey else cacheKey
  let stored := getItem st key
  let storedValue := if strIsEmpty stored then none else stored
  if bcm.cacheConfig.storeAuthStateInCookie then
    let itemCookie := getItemCookie st key
    if itemCookie ≠ "" then some itemCookie else storedValue
  else storedValue

/-- `setTemporaryCache`: sets the cache item, mirrored into a cookie when
`storeAuthStateInCookie` is set. -/
def setTemporaryCache (bcm : BrowserCacheManager) (st : CacheState)
    (cacheKey value : String) (generateKey : Bool) : CacheState :=
  let key := if generateKey then generateCacheKey bcm cacheKey else cacheKey
  let st1 := setItem st key value
  if bcm.cacheConfig.storeAuthStateInCookie then setItemCookie st1 key value else st1

/-- The decoded shape of the opaque request state: the library-minted
correlation id, the interaction kind, and the caller's own state. -/
structure RequestStateObject where
  stateId : String
  interactionKind : String
  userState : String
deriving DecidableEq, Repr

/-- Modelled from the spec: the ProtocolStateCodec encoding of
{correlationId, interactionKind, callerState} into one opaque state string. -/
def encodeRequestState (info : RequestStateObject) : String :=
  info.stateId ++ ":" ++ info.interactionKind ++ "|" ++ info.userState

/-- Split a character list at the first occurrence of a separator. -/
def splitFirstAt (sep : Char) : List Char → Option (List Char × List Char)
  | [] => none
  | c :: rest =>
    if c = sep then some ([], rest)
    else (splitFirstAt sep rest).map fun p => (c :: p.1, p.2)

/-- Modelled from the spec: `ProtocolUtils.parseRequestState` decodes the
opaque state, rejecting malformed input (missing components or an empty
correlation id) with a structured error, modelled as `none`. -/
def parseRequestState (stateString : String) : Option RequestStateObject :=
  match splitFirstAt '|' stateString.data with
  | none => none
  | some (libPart, userPart) =>
    match splitFirstAt ':' libPart with
    | none => none
    | some (idChars, kindChars) =>
      if idChars.isEmpty then none
      else some ⟨String.mk idChars, String.mk kindChars, String.mk userPart⟩

/-- `generateAuthorityKey`: create the authority temporary-cache key for a
request state; the embedded library state id namespaces the key.  The parse
failure of a malformed state (a thrown error in the source) is `none`. -/
def generateAuthorityKey (bcm : BrowserCacheManager) (stateString : String) : Option String :=
  (parseRequestState stateString).map fun info =>
    generateCacheKey bcm (tckAuthority ++ "." ++ info.stateId)

/-- `generateNonceKey`: create the nonce temporary-cache key for a request
state. -/
def generateNonceKey (bcm : BrowserCacheManager) (stateString : String) : Option String :=
  (parseRequestState stateString).map fun info =>
    generateCacheKey bcm (tckNonceIdToken ++ "." ++ info.stateId)

/-- `generateStateKey`: create the full cache key for the request state,
keyed by the library state id for uniqueness across concurrent requests. -/
def generateStateKey (bcm : BrowserCacheManager) (stateString : String) : Option String :=
  (parseRequestState stateString).map fun info =>
    generateCacheKey bcm (tckRequestState ++ "." ++ info.stateId)

/-- `setAuthorityCache`: stores the authority under the state's authority key
(a plain `setItem`, no cookie mirroring). -/
def setAuthorityCache (bcm : BrowserCacheManager) (st : CacheState)
    (authority state : String) : Option CacheState :=
  (generateAuthorityKey bcm state).map fun authorityCacheKey =>
    setItem st authorityCacheKey authority

/-- `updateCacheEntries`: caches the request state, nonce and authority for
one outgoing request. -/
def updateCacheEntries (bcm : BrowserCacheManager) (st : CacheState)
    (state nonce authorityInstance : String) : Option CacheState := do
  let stateCacheKey ← generateStateKey bcm state
  let st1 := setTemporaryCache bcm st stateCacheKey state false
  let nonceCacheKey ← generateNonceKey bcm state
  let st2 := setTemporaryCache bcm st1 nonceCacheKey nonce false
  setAuthorityCache bcm st2 authorityInstance state

/-- `resetRequestCache`: sweeps every key containing the state string, then
removes the state, nonce and authority keys of the state, then the fixed
request-scoped temporary items. -/
def resetRequestCache (bcm : BrowserCacheManager) (st : CacheState)
    (state : String) : Option CacheState := do
  let st1 :=
    if state = "" then st
    else (getKeys st).foldl
      (fun acc key => if strContains key state then removeItem bcm acc key else acc) st
  let st2 ←
    if state ≠ "" then do
      let k1 ← generateStateKey bcm state
      let k2 ← generateNonceKey bcm state
      let k3 ← generateAuthorityKey bcm state
      pure (removeItem bcm (removeItem bcm (removeItem bcm st1 k1) k2) k3)
    else pure st1
  pure (removeItem bcm
    (removeItem bcm
      (removeItem bcm
        (removeItem bcm st2 (generateCacheKey bcm tckRequestParams))
        (generateCacheKey bcm tckOriginUri))
      (generateCacheKey bcm tckUrlHash))
    (generateCacheKey bcm tckInteractionStatus))

/-- `cleanRequestByState`: looks up the cached state value under the state's
key and resets every request-scoped cache item for it. -/
def cleanRequestByState (bcm : BrowserCacheManager) (st : CacheState)
    (stateString : String) : Option CacheState :=
  if stateString ≠ "" then do
    let stateKey ← generateStateKey bcm stateString
    let cachedState := getItem st stateKey
    resetRequestCache bcm st (cachedState.getD "")
  else pure st

/-- Modelled from the spec: `CacheManager.removeAllAccounts` scans all keys
and removes every entry whose stored value validates as an account entity. -/
def removeAllAccounts (bcm : BrowserCacheManager) (st : CacheState) : CacheState :=
  (getKeys st).foldl
    (fun acc key =>
      match getAccount acc key with
      | some _ => removeItem bcm acc key
      | none => acc) st

/-- Modelled from the spec: `CacheManager.removeAppMetadata` scans all keys
and removes every app-metadata entry. -/
def removeAppMetadata (bcm : BrowserCacheManager) (st : CacheState) : CacheState :=
  (getKeys st).foldl
    (fun acc key =>
      match getAppMetadata acc key with
      | some _ => removeItem bcm acc key
      | none => acc) st

/-- `clear`: removes accounts and app metadata through the dedicated helpers,
then every remaining key containing the cache namespace marker or the client
id. -/
def clear (bcm : BrowserCacheManager) (st : CacheState) : CacheState :=
  let st1 := removeAllAccounts bcm st
  let st2 := removeAppMetadata bcm st1
  (getKeys st2).foldl
    (fun acc cacheKey =>
      if containsKey acc cacheKey
          && (strContains cacheKey cachePrefixStr || strContains cacheKey bcm.clientId)
      then removeItem bcm acc cacheKey else acc) st2

/-- The subset of the OpenID configuration document consumed by `Authority`. -/
structure OpenIdConfigResponse where
  authorization_endpoint : String
  token_endpoint : String
  end_session_endpoint : String
  issuer : String
deriving DecidableEq, Repr

/-- `ProtocolMode`: the way endpoints are constructed. -/
inductive ProtocolMode
  | AAD
  | OIDC
deriving DecidableEq, Repr

/-- `AuthorityType` of an authority URL. -/
inductive AuthorityType
  | Default
  | Adfs
deriving DecidableEq, Repr

/-- The URI components consumed by the claims
(`HostNameAndPort`, `PathSegments`). -/
structure IUri where
  HostNameAndPort : String
  PathSegments : List String
deriving DecidableEq, Repr

/-- Skip an absolute URI's scheme through the `://` separator. -/
def dropScheme : List Char → List Char
  | ':' :: '/' :: '/' :: rest => rest
  | _ :: rest => dropScheme rest
  | [] => []

/-- Modelled from the spec: `UrlString.getUrlComponents` parses the canonical
authority as an absolute URI into its host (with port) and its non-empty path
segments. -/
def getUrlComponents (urlString : String) : IUri :=
  let afterScheme := dropScheme urlString.data
  let host := afterScheme.takeWhile (fun c => c != '/')
  let path := afterScheme.dropWhile (fun c => c != '/')
  let segments := (path.splitOn '/').filter (fun seg => ¬ seg.isEmpty)
  ⟨String.mk host, segments.map String.mk⟩

/-- JavaScript `str.replace(pat, repl)` with a plain-string pattern: replaces
the first occurrence only. -/
def replaceFirstChars (pat repl : List Char) : List Char → List Char
  | [] => if pat.isEmpty then repl else []
  | c :: rest =>
    if pat.isPrefixOf (c :: rest) then repl ++ (c :: rest).drop pat.length
    else c :: replaceFirstChars pat repl rest

/-- String form of `replaceFirstChars`. -/
def strReplaceFirst (s pat repl : String) : String :=
  String.mk (replaceFirstChars pat.data repl.data s.data)

/-- The global regex replace of `\x7btenant\x7d` or `\x7btenantid\x7d` by the
tenant, scanning left to right and trying the `\x7btenant\x7d` alternative
first at each position, exactly as `/\x7btenant\x7d|\x7btenantid\x7d/g`. -/
def replaceTenantFuel (tenant : List Char) : Nat → List Char → List Char
  | _, [] => []
  | 0, l => l
  | Nat.succ fuel, c :: rest =>
    if ['{', 't', 'e', 'n', 'a', 'n', 't', '}'].isPrefixOf (c :: rest) then
      tenant ++ replaceTenantFuel tenant fuel (rest.drop 7)
    else if ['{', 't', 'e', 'n', 'a', 'n', 't', 'i', 'd', '}'].isPrefixOf (c :: rest) then
      tenant ++ replaceTenantFuel tenant fuel (rest.drop 9)
    else c :: replaceTenantFuel tenant fuel rest

/-- Entry point of the scan; every step consumes at least one character, so
the input length bounds the number of steps and the fuel never runs out. -/
def replaceTenantChars (tenant l : List Char) : List Char :=
  replaceTenantFuel tenant l.length l

/-- The `Authority` object: canonical URL, discovery response, protocol mode. -/
structure Authority where
  canonicalAuthority : String
  tenantDiscoveryResponse : Option OpenIdConfigResponse
  protocolMode : ProtocolMode
deriving DecidableEq, Repr

/-- `canonicalAuthorityUrlComponents` (recomputed from the canonical URL). -/
def Authority.canonicalAuthorityUrlComponents (a : Authority) : IUri :=
  getUrlComponents a.canonicalAuthority

/-- `tenant`: the first path segment; JavaScript yields `undefined` (coerced
to the string "undefined" inside `replace`) when there is none. -/
def Authority.tenant (a : Authority) : String :=
  (a.canonicalAuthorityUrlComponents.PathSegments).headD "undefined"

/-- `authorityType`: ADFS when the first path segment is `adfs`. -/
def Authority.authorityType (a : Authority) : AuthorityType :=
  match a.canonicalAuthorityUrlComponents.PathSegments with
  | first :: _ =>
    if first.toLower = "adfs" then AuthorityType.Adfs else AuthorityType.Default
  | [] => AuthorityType.Default

/-- `discoveryComplete`: whether tenant discovery has been completed. -/
def Authority.discoveryComplete (a : Authority) : Bool :=
  a.tenantDiscoveryResponse.isSome

/-- `replaceTenant`: replaces the tenant placeholders in a url with the
current tenant. -/
def Authority.replaceTenant (a : Authority) (urlString : String) : String :=
  String.mk (replaceTenantChars a.tenant.data urlString.data)

/-- The errors `Authority` raises in the embedded fragment. -/
inductive AuthErrorKind
  | endpointDiscoveryIncomplete
  | untrustedAuthority
deriving DecidableEq, Repr

/-- `authorizationEndpoint` accessor: discovery-incomplete error until the
tenant discovery response is set. -/
def Authority.authorizationEndpoint (a : Authority) : Except AuthErrorKind String :=
  match a.tenantDiscoveryResponse with
  | some resp => .ok (a.replaceTenant resp.authorization_endpoint)
  | none => .error .endpointDiscoveryIncomplete

/-- `tokenEndpoint` accessor. -/
def Authority.tokenEndpoint (a : Authority) : Except AuthErrorKind String :=
  match a.tenantDiscoveryResponse with
  | some resp => .ok (a.replaceTenant resp.token_endpoint)
  | none => .error .endpointDiscoveryIncomplete

/-- `deviceCodeEndpoint` accessor: the raw token endpoint with the first
`/token` replaced by `/devicecode` (no tenant substitution). -/
def Authority.deviceCodeEndpoint (a : Authority) : Except AuthErrorKind String :=
  match a.tenantDiscoveryResponse with
  | some resp => .ok (strReplaceFirst resp.token_endpoint "/token" "/devicecode")
  | none => .error .endpointDiscoveryIncomplete

/-- `endSessionEndpoint` accessor. -/
def Authority.endSessionEndpoint (a : Authority) : Except AuthErrorKind String :=
  match a.tenantDiscoveryResponse with
  | some resp => .ok (a.replaceTenant resp.end_session_endpoint)
  | none => .error .endpointDiscoveryIncomplete

/-- `selfSignedJwtAudience` accessor. -/
def Authority.selfSignedJwtAudience (a : Authority) : Except AuthErrorKind String :=
  match a.tenantDiscoveryResponse with
  | some resp => .ok (a.replaceTenant resp.issuer)
  | none => .error .endpointDiscoveryIncomplete

/-- `defaultOpenIdConfigurationEndpoint`: ADFS and OIDC-mode authorities omit
the `v2.0` path segment. -/
def Authority.defaultOpenIdConfigurationEndpoint (a : Authority) : String :=
  if a.authorityType = AuthorityType.Adfs ∨ a.protocolMode = ProtocolMode.OIDC then
    a.canonicalAuthority ++ ".well-known/openid-configuration"
  else
    a.canonicalAuthority ++ "v2.0/.well-known/openid-configuration"

/-- One trust-registry entry's cloud metadata. -/
structure CloudDiscoveryMetadata where
  preferred_network : String
  preferred_cache : String
  aliases : List String
deriving DecidableEq, Repr

/-- Modelled from the spec: the `TrustedAuthority` registry, host names mapped
to cloud metadata. -/
abbrev TrustRegistry := List (String × CloudDiscoveryMetadata)

/-- Modelled from the spec: `TrustedAuthority.IsInTrustedHostList`. -/
def isInTrustedHostList (registry : TrustRegistry) (host : String) : Bool :=
  registry.any fun p => p.1 == host

/-- Modelled from the spec: `TrustedAuthority.getCloudDiscoveryMetadata`;
every use in the embedded fragment is guarded by a trusted-host check, so the
default entry is never observed. -/
def getCloudDiscoveryMetadata (registry : TrustRegistry) (host : String) :
    CloudDiscoveryMetadata :=
  ((registry.find? fun p => p.1 == host).map (·.2)).getD ⟨host, host, []⟩

/-- The network capability: the registry that
`TrustedAuthority.setTrustedAuthoritiesFromNetwork` would install, and the
OpenID configuration document served per endpoint URL. -/
structure NetworkEnv where
  trustedHostRegistry : TrustRegistry
  openIdConfigResponseFor : String → OpenIdConfigResponse

/-- `validateAndSetPreferredNetwork`: one lazy refresh of the trusted-host
list when the registry is empty, then fail on an untrusted host, else rewrite
the canonical host to the preferred network host.  Returns the registry after
the potential refresh along with the outcome. -/
def validateAndSetPreferredNetwork (a : Authority) (registry : TrustRegistry)
    (env : NetworkEnv) : TrustRegistry × Except AuthErrorKind Authority :=
  let host := a.canonicalAuthorityUrlComponents.HostNameAndPort
  let registry1 := if registry.isEmpty then env.trustedHostRegistry else registry
  if ¬ isInTrustedHostList registry1 host then
    (registry1, .error .untrustedAuthority)
  else
    let preferredNetwork := (getCloudDiscoveryMetadata registry1 host).preferred_network
    if host ≠ preferredNetwork then
      (registry1, .ok { a with
        canonicalAuthority := strReplaceFirst a.canonicalAuthority host preferredNetwork })
    else (registry1, .ok a)

/-- Result of `resolveEndpointsAsync`: the registry after any lazy refresh,
the outcome, and whether the OpenID configuration document was fetched. -/
structure ResolveOutcome where
  registry : TrustRegistry
  result : Except AuthErrorKind Authority
  openIdFetched : Bool
deriving Repr

/-- `resolveEndpointsAsync`: validate trust (with one lazy registry refresh),
then fetch the OpenID configuration and store the discovery response. -/
def Authority.resolveEndpointsAsync (a : Authority) (registry : TrustRegistry)
    (env : NetworkEnv) : ResolveOutcome :=
  match validateAndSetPreferredNetwork a registry env with
  | (registry1, .error e) => ⟨registry1, .error e, false⟩
  | (registry1, .ok a1) =>
    let openIdConfigEndpoint := a1.defaultOpenIdConfigurationEndpoint
    let response := env.openIdConfigResponseFor openIdConfigEndpoint
    ⟨registry1, .ok { a1 with tenantDiscoveryResponse := some response }, true⟩

theorem storeGet_remove_self (s : Store) (k : String) :
    storeGet (storeRemove s k) k = none := by
  induction s with
  | nil => rfl
  | cons p rest ih =>
    rcases p with ⟨k', v⟩
    by_cases h : k' = k
    · simpa [storeRemove, h] using ih
    · simp [storeRemove, storeGet, h, ih]

theorem storeGet_remove_other (s : Store) (k k' : String) (h : k ≠ k') :
    storeGet (storeRemove s k) k' = storeGet s k' := by
  induction s with
  | nil => rfl
  | cons p rest ih =>
    rcases p with ⟨k2, v⟩
    by_cases h2 : k2 = k
    · subst h2
      simp [storeRemove, storeGet, h, ih]
    · by_cases h3 : k2 = k'
      · subst h3
        simp [storeRemove, storeGet, h2]
      · simp [storeRemove, storeGet, h2, h3, ih]

theorem storeGet_set_self (s : Store) (k v : String) :
    storeGet (storeSet s k v) k = some v := by
  simp [storeSet, storeGet]

theorem storeGet_set_other (s : Store) (k v k' : String) (h : k ≠ k') :
    storeGet (storeSet s k v) k' = storeGet s k' := by
  simp only [storeSet, storeGet, if_neg h]
  exact storeGet_remove_other s k k' h

theorem mem_storeKeys_remove (s : Store) (k k' : String)
    (h : k' ∈ storeKeys (storeRemove s k)) : k' ∈ storeKeys s := by
  induction s with
  | nil => simpa [storeRemove] using h
  | cons p rest ih =>
    rcases p with ⟨k2, v⟩
    by_cases h2 : k2 = k
    · simp only [storeRemove, if_pos h2] at h
      exact List.mem_cons_of_mem _ (ih h)
    · simp only [storeRemove, if_neg h2, storeKeys, List.map_cons, List.mem_cons] at h ⊢
      rcases h with h | h
      · exact Or.inl h
      · exact Or.inr (ih h)

theorem mem_storeKeys_set (s : Store) (k v k' : String)
    (h : k' ∈ storeKeys (storeSet s k v)) : k' = k ∨ k' ∈ storeKeys s := by
  simp only [storeSet, storeKeys, List.map_cons, List.mem_cons] at h
  rcases h with h | h
  · exact Or.inl h
  · exact Or.inr (mem_storeKeys_remove s k k' h)

theorem storeGet_eq_none_of_not_mem (s : Store) (k : String)
    (h : k ∉ storeKeys s) : storeGet s k = none := by
  induction s with
  | nil => rfl
  | cons p rest ih =>
    rcases p with ⟨k2, v⟩
    simp only [storeKeys, List.map_cons, List.mem_cons, not_or] at h
    simp only [storeGet]
    rw [if_neg (fun hc => h.1 hc.symm)]
    exact ih h.2

theorem removeItem_browserStorage (bcm : BrowserCacheManager) (st : CacheState) (k : String) :
    (removeItem bcm st k).browserStorage = storeRemove st.browserStorage k := by
  unfold removeItem clearItemCookie setItemCookie
  split <;> rfl

theorem setTemporaryCache_browserStorage (bcm : BrowserCacheManager) (st : CacheState)
    (cacheKey value : String) (generateKey : Bool) :
    (setTemporaryCache bcm st cacheKey value generateKey).browserStorage
      = storeSet st.browserStorage
          (if generateKey then generateCacheKey bcm cacheKey else cacheKey) value := by
  unfold setTemporaryCache setItem setItemCookie
  split <;> split <;> rfl

theorem strData_append (a b : String) : (a ++ b).data = a.data ++ b.data := rfl

theorem prepended_key_data (cid key : String) :
    (cachePrefixStr ++ "." ++ cid ++ "." ++ key).data
      = 'm' :: 's' :: 'a' :: 'l' :: '.' :: (cid.data ++ '.' :: key.data) := by
  show (((("msal" : String) ++ ".") ++ cid) ++ "." ++ key).data = _
  simp only [strData_append, List.append_assoc]
  rfl

theorem validateAndParseJson_prepended (cid key : String) :
    validateAndParseJson (cachePrefixStr ++ "." ++ cid ++ "." ++ key) = none :=
  parseJsonObj_eq_none_of_head 'm' _ _ (prepended_key_data cid key) (by decide) (by decide)

theorem strStartsWith_prepended (cid key : String) :
    strStartsWith (cachePrefixStr ++ "." ++ cid ++ "." ++ key) cachePrefixStr = true := by
  simp +decide [strStartsWith, prepended_key_data, List.isPrefixOf]

theorem generateCacheKey_of_parse_none (bcm : BrowserCacheManager) (key : String)
    (h : validateAndParseJson key = none) :
    generateCacheKey bcm key
      = if strStartsWith key cachePrefixStr || strStartsWith key adalIdTokenKey then key
        else cachePrefixStr ++ "." ++ bcm.clientId ++ "." ++ key := by
  unfold generateCacheKey
  rw [h]

/-- C9: `generateCacheKey` is idempotent on every non-JSON input key: a key
already carrying the library cache marker is returned unchanged, otherwise the
marker and client id are prepended exactly once and the result — which itself
starts with the marker and is not JSON — is a fixed point. -/
theorem claim_C9 (bcm : BrowserCacheManager) (key : String)
    (h : validateAndParseJson key = none) :
    generateCacheKey bcm (generateCacheKey bcm key) = generateCacheKey bcm key := by
  rw [generateCacheKey_of_parse_none bcm key h]
  by_cases hpfx : strStartsWith key cachePrefixStr || strStartsWith key adalIdTokenKey
  · rw [if_pos hpfx, generateCacheKey_of_parse_none bcm key h, if_pos hpfx]
  · rw [if_neg hpfx,
      generateCacheKey_of_parse_none bcm _ (validateAndParseJson_prepended bcm.clientId key),
      if_pos (by rw [strStartsWith_prepended bcm.clientId key, Bool.true_or])]

/-- Witness for C9 at a concrete non-JSON key. -/
theorem claim_C9_witness :
    validateAndParseJson "request.params" = none ∧
    generateCacheKey ⟨"client-a", ⟨false⟩⟩ (generateCacheKey ⟨"client-a", ⟨false⟩⟩ "request.params")
      = generateCacheKey ⟨"client-a", ⟨false⟩⟩ "request.params" :=
  ⟨by decide, claim_C9 ⟨"client-a", ⟨false⟩⟩ "request.params" (by decide)⟩

/-- Counterexample for C7 as stated: with cookie mirroring configured, a
non-empty cookie value wins even though the primary store holds a different
value, so the primary store is not read first. -/
theorem claim_C7_cex :
    getTemporaryCache ⟨"c", ⟨true⟩⟩ ⟨[("k", "B")], [("k", "A")]⟩ "k" false = some "A"
    ∧ getItem ⟨[("k", "B")], [("k", "A")]⟩ "k" = some "B"
    ∧ ("A" : String) ≠ "B" := by decide

/-- C7 (amended): `getTemporaryCache` consults the cookie mirror first — and
only when the host is configured for cookie mirroring — returning a non-empty
cookie value outright; the primary store is read when mirroring is off or the
cookie is absent/empty. -/
theorem claim_C7 (bcm : BrowserCacheManager) (st : CacheState) (cacheKey : String)
    (generateKey : Bool) :
    (bcm.cacheConfig.storeAuthStateInCookie = false →
      getTemporaryCache bcm st cacheKey generateKey
        = (if strIsEmpty (getItem st (if generateKey then generateCacheKey bcm cacheKey else cacheKey))
           then none
           else getItem st (if generateKey then generateCacheKey bcm cacheKey else cacheKey)))
    ∧ (bcm.cacheConfig.storeAuthStateInCookie = true →
        getItemCookie st (if generateKey then generateCacheKey bcm cacheKey else cacheKey) ≠ "" →
        getTemporaryCache bcm st cacheKey generateKey
          = some (getItemCookie st (if generateKey then generateCacheKey bcm cacheKey else cacheKey)))
    ∧ (bcm.cacheConfig.storeAuthStateInCookie = true →
        getItemCookie st (if generateKey then generateCacheKey bcm cacheKey else cacheKey) = "" →
        getTemporaryCache bcm st cacheKey generateKey
          = (if strIsEmpty (getItem st (if generateKey then generateCacheKey bcm cacheKey else cacheKey))
             then none
             else getItem st (if generateKey then generateCacheKey bcm cacheKey else cacheKey))) := by
  refine ⟨fun h => ?_, fun h hc => ?_, fun h hc => ?_⟩
  · simp [getTemporaryCache, h]
  · simp [getTemporaryCache, h, hc]
  · simp [getTemporaryCache, h, hc]

/-- Witness for C7 (amended) at a concrete cookie-mirrored state. -/
theorem claim_C7_witness :
    getTemporaryCache ⟨"c", ⟨true⟩⟩ ⟨[("k", "B")], [("k", "A")]⟩ "k" false = some "A" :=
  (claim_C7 ⟨"c", ⟨true⟩⟩ ⟨[("k", "B")], [("k", "A")]⟩ "k" false).2.1 rfl (by decide)

/-- C2: an authority whose host is not in the trust registry after the (at
most one) lazy refresh of the trusted-host list makes `resolveEndpointsAsync`
fail with the untrusted-authority error, and the OpenID configuration
document is not fetched. -/
theorem claim_C2 (a : Authority) (registry : TrustRegistry) (env : NetworkEnv)
    (h : isInTrustedHostList (if registry.isEmpty then env.trustedHostRegistry else registry)
          a.canonicalAuthorityUrlComponents.HostNameAndPort = false) :
    a.resolveEndpointsAsync registry env
      = ⟨(if registry.isEmpty then env.trustedHostRegistry else registry),
         .error .untrustedAuthority, false⟩ := by
  simp only [List.isEmpty_iff] at h
  unfold Authority.resolveEndpointsAsync validateAndSetPreferredNetwork
  simp [h]

/-- Witness for C2: an empty registry is refreshed from the network once, the
host is still untrusted, and no OpenID fetch happens. -/
theorem claim_C2_witness :
    Authority.resolveEndpointsAsync ⟨"https://evil.example.net/common/", none, ProtocolMode.AAD⟩
      ([] : TrustRegistry)
      ⟨[("login.example.com", ⟨"login.example.com", "login.example.com", []⟩)],
        fun _ => ⟨"", "", "", ""⟩⟩
      = ⟨[("login.example.com", ⟨"login.example.com", "login.example.com", []⟩)],
         .error .untrustedAuthority, false⟩ :=
  claim_C2 ⟨"https://evil.example.net/common/", none, ProtocolMode.AAD⟩ []
    ⟨[("login.example.com", ⟨"login.example.com", "login.example.com", []⟩)],
      fun _ => ⟨"", "", "", ""⟩⟩ (by decide)

/-- Counterexample for C3 as stated: after discovery, `deviceCodeEndpoint`
returns the raw token endpoint with `/token` swapped for `/devicecode` and
leaves the tenant placeholder in place, instead of substituting the literal
tenant segment (`common`). -/
theorem claim_C3_cex :
    Authority.deviceCodeEndpoint
      ⟨"https://login.example.com/common/",
       some ⟨"a", "https://login.example.com/\x7btenant\x7d/oauth2/v2.0/token", "e", "i"⟩,
       ProtocolMode.AAD⟩
      = .ok "https://login.example.com/\x7btenant\x7d/oauth2/v2.0/devicecode"
    ∧ strContains "https://login.example.com/\x7btenant\x7d/oauth2/v2.0/devicecode"
        "\x7btenant\x7d" = true
    ∧ Authority.replaceTenant
        ⟨"https://login.example.com/common/",
         some ⟨"a", "https://login.example.com/\x7btenant\x7d/oauth2/v2.0/token", "e", "i"⟩,
         ProtocolMode.AAD⟩
        "https://login.example.com/\x7btenant\x7d/oauth2/v2.0/devicecode"
      = "https://login.example.com/common/oauth2/v2.0/devicecode" := by
  refine ⟨rfl, by decide, by decide⟩

/-- C3 (amended): every derived-endpoint accessor raises the
endpoint-discovery-incomplete error while the tenant discovery response is
unset; after `resolveEndpointsAsync` succeeds, `authorizationEndpoint`,
`tokenEndpoint`, `endSessionEndpoint` and `selfSignedJwtAudience` return the
discovered URLs with every tenant placeholder replaced by the authority's
literal tenant path segment, while `deviceCodeEndpoint` returns the raw token
endpoint with the first `/token` replaced by `/devicecode` and no tenant
substitution. -/
theorem claim_C3 :
    (∀ a : Authority, a.tenantDiscoveryResponse = none →
      a.authorizationEndpoint = .error .endpointDiscoveryIncomplete ∧
      a.tokenEndpoint = .error .endpointDiscoveryIncomplete ∧
      a.deviceCodeEndpoint = .error .endpointDiscoveryIncomplete ∧
      a.endSessionEndpoint = .error .endpointDiscoveryIncomplete ∧
      a.selfSignedJwtAudience = .error .endpointDiscoveryIncomplete)
    ∧ (∀ (a : Authority) (registry : TrustRegistry) (env : NetworkEnv) (a1 : Authority),
        (a.resolveEndpointsAsync registry env).result = .ok a1 →
        ∃ resp, a1.tenantDiscoveryResponse = some resp ∧
          a1.authorizationEndpoint = .ok (a1.replaceTenant resp.authorization_endpoint) ∧
          a1.tokenEndpoint = .ok (a1.replaceTenant resp.token_endpoint) ∧
          a1.endSessionEndpoint = .ok (a1.replaceTenant resp.end_session_endpoint) ∧
          a1.selfSignedJwtAudience = .ok (a1.replaceTenant resp.issuer) ∧
          a1.deviceCodeEndpoint = .ok (strReplaceFirst resp.token_endpoint "/token" "/devicecode"))
    ∧ (∀ a : Authority,
        a.replaceTenant "\x7btenant\x7d" = a.tenant ∧
        a.replaceTenant "\x7btenantid\x7d" = a.tenant) := by
  refine ⟨?_, ?_, ?_⟩
  · intro a ha
    unfold Authority.authorizationEndpoint Authority.tokenEndpoint
      Authority.deviceCodeEndpoint Authority.endSessionEndpoint
      Authority.selfSignedJwtAudience
    rw [ha]
    exact ⟨rfl, rfl, rfl, rfl, rfl⟩
  · intro a registry env a1 h
    have hex : ∃ resp, a1.tenantDiscoveryResponse = some resp := by
      unfold Authority.resolveEndpointsAsync at h
      rcases hv : validateAndSetPreferredNetwork a registry env with ⟨reg1, res⟩
      rw [hv] at h
      cases res with
      | error e => simp at h
      | ok a2 =>
        simp only [Except.ok.injEq] at h
        exact ⟨_, by rw [← h]⟩
    obtain ⟨resp, hresp⟩ := hex
    refine ⟨resp, hresp, ?_, ?_, ?_, ?_, ?_⟩
    · unfold Authority.authorizationEndpoint
      rw [hresp]
    · unfold Authority.tokenEndpoint
      rw [hresp]
    · unfold Authority.endSessionEndpoint
      rw [hresp]
    · unfold Authority.selfSignedJwtAudience
      rw [hresp]
    · unfold Authority.deviceCodeEndpoint
      rw [hresp]
  · intro a
    constructor
    · show String.mk (replaceTenantChars a.tenant.data
          ('{' :: 't' :: 'e' :: 'n' :: 'a' :: 'n' :: 't' :: '}' :: [])) = a.tenant
      simp +decide [replaceTenantChars, replaceTenantFuel, mk_data]
    · show String.mk (replaceTenantChars a.tenant.data
          ('{' :: 't' :: 'e' :: 'n' :: 'a' :: 'n' :: 't' :: 'i' :: 'd' :: '}' :: [])) = a.tenant
      simp +decide [replaceTenantChars, replaceTenantFuel, mk_data]

/-- Witness for C3 (amended): discovery-incomplete before discovery, tenant
substitution in `tokenEndpoint` after a successful resolve. -/
theorem claim_C3_witness :
    Authority.authorizationEndpoint ⟨"https://login.example.com/common/", none, ProtocolMode.AAD⟩
      = .error .endpointDiscoveryIncomplete
    ∧ Authority.tokenEndpoint
        ⟨"https://login.example.com/common/",
         some ⟨"https://login.example.com/\x7btenant\x7d/oauth2/v2.0/authorize",
               "https://login.example.com/\x7btenant\x7d/oauth2/v2.0/token",
               "https://login.example.com/\x7btenant\x7d/oauth2/v2.0/logout",
               "https://login.example.com/\x7btenantid\x7d/v2.0"⟩,
         ProtocolMode.AAD⟩
      = .ok "https://login.example.com/common/oauth2/v2.0/token" := by
  constructor
  · exact (claim_C3.1 ⟨"https://login.example.com/common/", none, ProtocolMode.AAD⟩ rfl).1
  · obtain ⟨resp, hresp, h1, h2, h3, h4, h5⟩ := claim_C3.2.1
      ⟨"https://login.example.com/common/", none, ProtocolMode.AAD⟩
      [("login.example.com", ⟨"login.example.com", "login.example.com", []⟩)]
      ⟨[("login.example.com", ⟨"login.example.com", "login.example.com", []⟩)],
       fun _ => ⟨"https://login.example.com/\x7btenant\x7d/oauth2/v2.0/authorize",
                 "https://login.example.com/\x7btenant\x7d/oauth2/v2.0/token",
                 "https://login.example.com/\x7btenant\x7d/oauth2/v2.0/logout",
                 "https://login.example.com/\x7btenantid\x7d/v2.0"⟩⟩
      ⟨"https://login.example.com/common/",
       some ⟨"https://login.example.com/\x7btenant\x7d/oauth2/v2.0/authorize",
             "https://login.example.com/\x7btenant\x7d/oauth2/v2.0/token",
             "https://login.example.com/\x7btenant\x7d/oauth2/v2.0/logout",
             "https://login.example.com/\x7btenantid\x7d/v2.0"⟩,
       ProtocolMode.AAD⟩
      rfl
    have hr : (⟨"https://login.example.com/\x7btenant\x7d/oauth2/v2.0/authorize",
        "https://login.example.com/\x7btenant\x7d/oauth2/v2.0/token",
        "https://login.example.com/\x7btenant\x7d/oauth2/v2.0/logout",
        "https://login.example.com/\x7btenantid\x7d/v2.0"⟩ : OpenIdConfigResponse)
        = resp := Option.some.inj hresp
    subst hr
    rw [h2]
    rfl

theorem getItem_setItem_self (st : CacheState) (k v : String) :
    getItem (setItem st k v) k = some v :=
  storeGet_set_self st.browserStorage k v

theorem getItem_setItem_other (st : CacheState) (k v k' : String) (h : k ≠ k') :
    getItem (setItem st k v) k' = getItem st k' :=
  storeGet_set_other st.browserStorage k v k' h

/-- Counterexample for C4 as stated: the server-telemetry write stores the
entity under the caller-supplied key verbatim — here a key different from the
fixed per-client telemetry key — so not every entity write derives its
storage key from the entity's own identity fields. -/
theorem claim_C4_cex :
    getItem (setServerTelemetry ⟨[], []⟩ "caller-chosen-key"
        [("failedRequests", "2"), ("errors", "e1"), ("cacheHits", "0")]) "caller-chosen-key"
      = some (encodeJsonObj [("failedRequests", "2"), ("errors", "e1"), ("cacheHits", "0")])
    ∧ "caller-chosen-key" ≠ generateServerTelemetryKey "client-a" := by
  exact ⟨by decide, by decide⟩

/-- C4 (amended): the five self-keyed entity writes (account, id token,
access token, refresh token, app metadata) store the serialized entity under
exactly the key derived from the entity's own identity fields and touch no
other key; the server-telemetry and throttling writes instead store under the
caller-supplied key verbatim. -/
theorem claim_C4 :
    (∀ (st : CacheState) (account : JsonObj),
      getItem (setAccount st account) (generateAccountKey account)
        = some (encodeJsonObj account)
      ∧ ∀ k, k ≠ generateAccountKey account →
          getItem (setAccount st account) k = getItem st k)
    ∧ (∀ (st : CacheState) (idToken : JsonObj),
      getItem (setIdTokenCredential st idToken) (generateCredentialKey idToken)
        = some (encodeJsonObj idToken)
      ∧ ∀ k, k ≠ generateCredentialKey idToken →
          getItem (setIdTokenCredential st idToken) k = getItem st k)
    ∧ (∀ (st : CacheState) (accessToken : JsonObj),
      getItem (setAccessTokenCredential st accessToken) (generateCredentialKey accessToken)
        = some (encodeJsonObj accessToken)
      ∧ ∀ k, k ≠ generateCredentialKey accessToken →
          getItem (setAccessTokenCredential st accessToken) k = getItem st k)
    ∧ (∀ (st : CacheState) (refreshToken : JsonObj),
      getItem (setRefreshTokenCredential st refreshToken) (generateCredentialKey refreshToken)
        = some (encodeJsonObj refreshToken)
      ∧ ∀ k, k ≠ generateCredentialKey refreshToken →
          getItem (setRefreshTokenCredential st refreshToken) k = getItem st k)
    ∧ (∀ (st : CacheState) (appMetadata : JsonObj),
      getItem (setAppMetadata st appMetadata) (generateAppMetadataKey appMetadata)
        = some (encodeJsonObj appMetadata)
      ∧ ∀ k, k ≠ generateAppMetadataKey appMetadata →
          getItem (setAppMetadata st appMetadata) k = getItem st k)
    ∧ (∀ (st : CacheState) (key : String) (serverTelemetry : JsonObj),
      getItem (setServerTelemetry st key serverTelemetry) key
        = some (encodeJsonObj serverTelemetry)
      ∧ ∀ k, k ≠ key →
          getItem (setServerTelemetry st key serverTelemetry) k = getItem st k)
    ∧ (∀ (st : CacheState) (key : String) (throttlingCache : JsonObj),
      getItem (setThrottlingCache st key throttlingCache) key
        = some (encodeJsonObj throttlingCache)
      ∧ ∀ k, k ≠ key →
          getItem (setThrottlingCache st key throttlingCache) k = getItem st k) := by
  exact ⟨fun st o => ⟨getItem_setItem_self st _ _,
      fun k hk => getItem_setItem_other st _ _ k (fun h => hk h.symm)⟩,
    fun st o => ⟨getItem_setItem_self st _ _,
      fun k hk => getItem_setItem_other st _ _ k (fun h => hk h.symm)⟩,
    fun st o => ⟨getItem_setItem_self st _ _,
      fun k hk => getItem_setItem_other st _ _ k (fun h => hk h.symm)⟩,
    fun st o => ⟨getItem_setItem_self st _ _,
      fun k hk => getItem_setItem_other st _ _ k (fun h => hk h.symm)⟩,
    fun st o => ⟨getItem_setItem_self st _ _,
      fun k hk => getItem_setItem_other st _ _ k (fun h => hk h.symm)⟩,
    fun st key o => ⟨getItem_setItem_self st _ _,
      fun k hk => getItem_setItem_other st _ _ k (fun h => hk h.symm)⟩,
    fun st key o => ⟨getItem_setItem_self st _ _,
      fun k hk => getItem_setItem_other st _ _ k (fun h => hk h.symm)⟩⟩

/-- Witness for C4 (amended) at a concrete account entity and a distinct key. -/
theorem claim_C4_witness :
    getItem
        (setAccount ⟨[], []⟩
          [("homeAccountId", "ha"), ("environment", "env"), ("realm", "r"),
           ("localAccountId", "la"), ("username", "u"), ("authorityType", "MSSTS")])
        (generateAccountKey
          [("homeAccountId", "ha"), ("environment", "env"), ("realm", "r"),
           ("localAccountId", "la"), ("username", "u"), ("authorityType", "MSSTS")])
      = some (encodeJsonObj
          [("homeAccountId", "ha"), ("environment", "env"), ("realm", "r"),
           ("localAccountId", "la"), ("username", "u"), ("authorityType", "MSSTS")])
    ∧ getItem
        (setAccount ⟨[("other", "x")], []⟩
          [("homeAccountId", "ha"), ("environment", "env"), ("realm", "r"),
           ("localAccountId", "la"), ("username", "u"), ("authorityType", "MSSTS")])
        "other"
      = some "x" := by
  constructor
  · exact (claim_C4.1 ⟨[], []⟩ _).1
  · exact ((claim_C4.1 ⟨[("other", "x")], []⟩
      [("homeAccountId", "ha"), ("environment", "env"), ("realm", "r"),
       ("localAccountId", "la"), ("username", "u"), ("authorityType", "MSSTS")]).2
      "other" (by decide)).trans (by decide)

/-- C5: for every stored string that is malformed (fails to parse as a JSON
object — covering both invalid JSON and parsed non-object values) or whose
parsed object fails the kind-specific validation predicate, every entity read
operation returns `none`; the reads are total functions, so no parse failure
is ever raised or propagated.  The hypothesis states the composite check the
source performs: applying the validator to the (possibly null) parse result
copied onto a fresh entity. -/
theorem claim_C5 :
    (∀ (st : CacheState) (key raw : String),
      isAccountEntity (toObject (validateAndParseJson raw)) = false →
      getItem st key = some raw → getAccount st key = none)
    ∧ (∀ (st : CacheState) (key raw : String),
      isIdTokenEntity (toObject (validateAndParseJson raw)) = false →
      getItem st key = some raw → getIdTokenCredential st key = none)
    ∧ (∀ (st : CacheState) (key raw : String),
      isAccessTokenEntity (toObject (validateAndParseJson raw)) = false →
      getItem st key = some raw → getAccessTokenCredential st key = none)
    ∧ (∀ (st : CacheState) (key raw : String),
      isRefreshTokenEntity (toObject (validateAndParseJson raw)) = false →
      getItem st key = some raw → getRefreshTokenCredential st key = none)
    ∧ (∀ (st : CacheState) (key raw : String),
      isAppMetadataEntity key (toObject (validateAndParseJson raw)) = false →
      getItem st key = some raw → getAppMetadata st key = none)
    ∧ (∀ (st : CacheState) (key raw : String),
      isServerTelemetryEntity key (toObject (validateAndParseJson raw)) = false →
      getItem st key = some raw → getServerTelemetry st key = none)
    ∧ (∀ (st : CacheState) (key raw : String),
      isThrottlingEntity key (toObject (validateAndParseJson raw)) = false →
      getItem st key = some raw → getThrottlingCache st key = none) := by
  refine ⟨fun st key raw hval hread => ?_, fun st key raw hval hread => ?_,
    fun st key raw hval hread => ?_, fun st key raw hval hread => ?_,
    fun st key raw hval hread => ?_, fun st key raw hval hread => ?_,
    fun st key raw hval hread => ?_⟩ <;>
  · first
      | unfold getAccount
      | unfold getIdTokenCredential
      | unfold getAccessTokenCredential
      | unfold getRefreshTokenCredential
      | unfold getAppMetadata
      | unfold getServerTelemetry
      | unfold getThrottlingCache
    rw [hread]
    by_cases hraw : raw = ""
    · simp [strIsEmpty, hraw]
    · simp [strIsEmpty, hraw, hval]

/-- Witness for C5 at a concrete malformed stored string. -/
theorem claim_C5_witness :
    getAccount ⟨[("acct-key", "not valid json")], []⟩ "acct-key" = none :=
  claim_C5.1 ⟨[("acct-key", "not valid json")], []⟩ "acct-key" "not valid json"
    (by decide) (by decide)

theorem getAccount_of_stored (st : CacheState) (k : String) (o : JsonObj)
    (hread : getItem st k = some (encodeJsonObj o)) (hv : isAccountEntity o = true) :
    getAccount st k = some o := by
  unfold getAccount
  rw [hread]
  simp [strIsEmpty, encodeJsonObj_ne_empty o, validateAndParseJson, parseJsonObj_encode,
    toObject, hv]

theorem getIdTokenCredential_of_stored (st : CacheState) (k : String) (o : JsonObj)
    (hread : getItem st k = some (encodeJsonObj o)) (hv : isIdTokenEntity o = true) :
    getIdTokenCredential st k = some o := by
  unfold getIdTokenCredential
  rw [hread]
  simp [strIsEmpty, encodeJsonObj_ne_empty o, validateAndParseJson, parseJsonObj_encode,
    toObject, hv]

theorem getAccessTokenCredential_of_stored (st : CacheState) (k : String) (o : JsonObj)
    (hread : getItem st k = some (encodeJsonObj o)) (hv : isAccessTokenEntity o = true) :
    getAccessTokenCredential st k = some o := by
  unfold getAccessTokenCredential
  rw [hread]
  simp [strIsEmpty, encodeJsonObj_ne_empty o, validateAndParseJson, parseJsonObj_encode,
    toObject, hv]

theorem getRefreshTokenCredential_of_stored (st : CacheState) (k : String) (o : JsonObj)
    (hread : getItem st k = some (encodeJsonObj o)) (hv : isRefreshTokenEntity o = true) :
    getRefreshTokenCredential st k = some o := by
  unfold getRefreshTokenCredential
  rw [hread]
  simp [strIsEmpty, encodeJsonObj_ne_empty o, validateAndParseJson, parseJsonObj_encode,
    toObject, hv]

theorem getAppMetadata_of_stored (st : CacheState) (k : String) (o : JsonObj)
    (hread : getItem st k = some (encodeJsonObj o)) (hv : isAppMetadataEntity k o = true) :
    getAppMetadata st k = some o := by
  unfold getAppMetadata
  rw [hread]
  simp [strIsEmpty, encodeJsonObj_ne_empty o, validateAndParseJson, parseJsonObj_encode,
    toObject, hv]

theorem getServerTelemetry_of_stored (st : CacheState) (k : String) (o : JsonObj)
    (hread : getItem st k = some (encodeJsonObj o)) (hv : isServerTelemetryEntity k o = true) :
    getServerTelemetry st k = some o := by
  unfold getServerTelemetry
  rw [hread]
  simp [strIsEmpty, encodeJsonObj_ne_empty o, validateAndParseJson, parseJsonObj_encode,
    toObject, hv]

theorem getThrottlingCache_of_stored (st : CacheState) (k : String) (o : JsonObj)
    (hread : getItem st k = some (encodeJsonObj o)) (hv : isThrottlingEntity k o = true) :
    getThrottlingCache st k = some o := by
  unfold getThrottlingCache
  rw [hread]
  simp [strIsEmpty, encodeJsonObj_ne_empty o, validateAndParseJson, parseJsonObj_encode,
    toObject, hv]

/-- C1: for every valid entity of each of the seven kinds, writing it through
the per-kind set operation and reading back under the key derived from the
entity's own identity fields returns an entity equal to the one written, from
any starting store; and a later write of another same-kind entity under a
different key leaves the read intact, so the result is independent of the
insertion order of other entities (the derived key itself is a pure function
of the entity, taking no store argument). -/
theorem claim_C1 :
    (∀ (st : CacheState) (account : JsonObj), isAccountEntity account = true →
      getAccount (setAccount st account) (generateAccountKey account) = some account)
    ∧ (∀ (st : CacheState) (idToken : JsonObj), isIdTokenEntity idToken = true →
      getIdTokenCredential (setIdTokenCredential st idToken) (generateCredentialKey idToken)
        = some idToken)
    ∧ (∀ (st : CacheState) (accessToken : JsonObj), isAccessTokenEntity accessToken = true →
      getAccessTokenCredential (setAccessTokenCredential st accessToken)
        (generateCredentialKey accessToken) = some accessToken)
    ∧ (∀ (st : CacheState) (refreshToken : JsonObj), isRefreshTokenEntity refreshToken = true →
      getRefreshTokenCredential (setRefreshTokenCredential st refreshToken)
        (generateCredentialKey refreshToken) = some refreshToken)
    ∧ (∀ (st : CacheState) (appMetadata : JsonObj),
      isAppMetadataEntity (generateAppMetadataKey appMetadata) appMetadata = true →
      getAppMetadata (setAppMetadata st appMetadata) (generateAppMetadataKey appMetadata)
        = some appMetadata)
    ∧ (∀ (st : CacheState) (key : String) (serverTelemetry : JsonObj),
      isServerTelemetryEntity key serverTelemetry = true →
      getServerTelemetry (setServerTelemetry st key serverTelemetry) key = some serverTelemetry)
    ∧ (∀ (st : CacheState) (key : String) (throttlingCache : JsonObj),
      isThrottlingEntity key throttlingCache = true →
      getThrottlingCache (setThrottlingCache st key throttlingCache) key = some throttlingCache)
    ∧ (∀ (st : CacheState) (a a' : JsonObj),
      generateAccountKey a ≠ generateAccountKey a' → isAccountEntity a = true →
      getAccount (setAccount (setAccount st a) a') (generateAccountKey a) = some a)
    ∧ (∀ (st : CacheState) (c c' : JsonObj),
      generateCredentialKey c ≠ generateCredentialKey c' → isIdTokenEntity c = true →
      getIdTokenCredential (setIdTokenCredential (setIdTokenCredential st c) c')
        (generateCredentialKey c) = some c)
    ∧ (∀ (st : CacheState) (c c' : JsonObj),
      generateCredentialKey c ≠ generateCredentialKey c' → isAccessTokenEntity c = true →
      getAccessTokenCredential (setAccessTokenCredential (setAccessTokenCredential st c) c')
        (generateCredentialKey c) = some c)
    ∧ (∀ (st : CacheState) (c c' : JsonObj),
      generateCredentialKey c ≠ generateCredentialKey c' → isRefreshTokenEntity c = true →
      getRefreshTokenCredential (setRefreshTokenCredential (setRefreshTokenCredential st c) c')
        (generateCredentialKey c) = some c)
    ∧ (∀ (st : CacheState) (m m' : JsonObj),
      generateAppMetadataKey m ≠ generateAppMetadataKey m' →
      isAppMetadataEntity (generateAppMetadataKey m) m = true →
      getAppMetadata (setAppMetadata (setAppMetadata st m) m') (generateAppMetadataKey m)
        = some m)
    ∧ (∀ (st : CacheState) (k k' : String) (e e' : JsonObj),
      k ≠ k' → isServerTelemetryEntity k e = true →
      getServerTelemetry (setServerTelemetry (setServerTelemetry st k e) k' e') k = some e)
    ∧ (∀ (st : CacheState) (k k' : String) (e e' : JsonObj),
      k ≠ k' → isThrottlingEntity k e = true →
      getThrottlingCache (setThrottlingCache (setThrottlingCache st k e) k' e') k = some e) := by
  refine ⟨fun st o hv => getAccount_of_stored _ _ o (getItem_setItem_self st _ _) hv,
    fun st o hv => getIdTokenCredential_of_stored _ _ o (getItem_setItem_self st _ _) hv,
    fun st o hv => getAccessTokenCredential_of_stored _ _ o (getItem_setItem_self st _ _) hv,
    fun st o hv => getRefreshTokenCredential_of_stored _ _ o (getItem_setItem_self st _ _) hv,
    fun st o hv => getAppMetadata_of_stored _ _ o (getItem_setItem_self st _ _) hv,
    fun st key o hv => getServerTelemetry_of_stored _ _ o (getItem_setItem_self st _ _) hv,
    fun st key o hv => getThrottlingCache_of_stored _ _ o (getItem_setItem_self st _ _) hv,
    fun st a a' hne hv => getAccount_of_stored _ _ a
      ((getItem_setItem_other (setAccount st a) _ _ _ (fun h => hne h.symm)).trans
        (getItem_setItem_self st _ _)) hv,
    fun st c c' hne hv => getIdTokenCredential_of_stored _ _ c
      ((getItem_setItem_other (setIdTokenCredential st c) _ _ _ (fun h => hne h.symm)).trans
        (getItem_setItem_self st _ _)) hv,
    fun st c c' hne hv => getAccessTokenCredential_of_stored _ _ c
      ((getItem_setItem_other (setAccessTokenCredential st c) _ _ _ (fun h => hne h.symm)).trans
        (getItem_setItem_self st _ _)) hv,
    fun st c c' hne hv => getRefreshTokenCredential_of_stored _ _ c
      ((getItem_setItem_other (setRefreshTokenCredential st c) _ _ _ (fun h => hne h.symm)).trans
        (getItem_setItem_self st _ _)) hv,
    fun st m m' hne hv => getAppMetadata_of_stored _ _ m
      ((getItem_setItem_other (setAppMetadata st m) _ _ _ (fun h => hne h.symm)).trans
        (getItem_setItem_self st _ _)) hv,
    fun st k k' e e' hne hv => getServerTelemetry_of_stored _ _ e
      ((getItem_setItem_other (setServerTelemetry st k e) _ _ _ (fun h => hne h.symm)).trans
        (getItem_setItem_self st _ _)) hv,
    fun st k k' e e' hne hv => getThrottlingCache_of_stored _ _ e
      ((getItem_setItem_other (setThrottlingCache st k e) _ _ _ (fun h => hne h.symm)).trans
        (getItem_setItem_self st _ _)) hv⟩

/-- Witness for C1 at concrete valid entities: an account round-trip, a
server-telemetry round-trip under its fixed per-client key, and an account
round-trip preserved under a later different-key write. -/
theorem claim_C1_witness :
    getAccount
        (setAccount ⟨[], []⟩
          [("homeAccountId", "ha"), ("environment", "login.example.com"), ("realm", "common"),
           ("localAccountId", "la"), ("username", "user@example.com"), ("authorityType", "MSSTS")])
        (generateAccountKey
          [("homeAccountId", "ha"), ("environment", "login.example.com"), ("realm", "common"),
           ("localAccountId", "la"), ("username", "user@example.com"), ("authorityType", "MSSTS")])
      = some
          [("homeAccountId", "ha"), ("environment", "login.example.com"), ("realm", "common"),
           ("localAccountId", "la"), ("username", "user@example.com"), ("authorityType", "MSSTS")]
    ∧ getServerTelemetry
        (setServerTelemetry ⟨[], []⟩ (generateServerTelemetryKey "client-a")
          [("failedRequests", "2"), ("errors", "err1"), ("cacheHits", "5")])
        (generateServerTelemetryKey "client-a")
      = some [("failedRequests", "2"), ("errors", "err1"), ("cacheHits", "5")]
    ∧ getAccount
        (setAccount
          (setAccount ⟨[], []⟩
            [("homeAccountId", "ha"), ("environment", "login.example.com"), ("realm", "common"),
             ("localAccountId", "la"), ("username", "user@example.com"), ("authorityType", "MSSTS")])
          [("homeAccountId", "hb"), ("environment", "login.example.com"), ("realm", "common"),
           ("localAccountId", "lb"), ("username", "other@example.com"), ("authorityType", "MSSTS")])
        (generateAccountKey
          [("homeAccountId", "ha"), ("environment", "login.example.com"), ("realm", "common"),
           ("localAccountId", "la"), ("username", "user@example.com"), ("authorityType", "MSSTS")])
      = some
          [("homeAccountId", "ha"), ("environment", "login.example.com"), ("realm", "common"),
           ("localAccountId", "la"), ("username", "user@example.com"), ("authorityType", "MSSTS")] := by
  refine ⟨claim_C1.1 ⟨[], []⟩ _ (by decide),
    (claim_C1.2.2.2.2.2.1 ⟨[], []⟩ (generateServerTelemetryKey "client-a") _ (by decide)),
    (claim_C1.2.2.2.2.2.2.2.1 ⟨[], []⟩ _ _ (by decide) (by decide))⟩

theorem stateKeyData (id : String) :
    (tckRequestState ++ "." ++ id).data
      = 'r' :: 'e' :: 'q' :: 'u' :: 'e' :: 's' :: 't' :: '.' :: 's' :: 't' :: 'a' :: 't' :: 'e'
          :: '.' :: id.data := by
  show (("request.state" : String) ++ "." ++ id).data = _
  simp only [strData_append, List.append_assoc]
  rfl

theorem nonceKeyData (id : String) :
    (tckNonceIdToken ++ "." ++ id).data
      = 'n' :: 'o' :: 'n' :: 'c' :: 'e' :: '.' :: 'i' :: 'd' :: '_' :: 't' :: 'o' :: 'k' :: 'e'
          :: 'n' :: '.' :: id.data := by
  show (("nonce.id_token" : String) ++ "." ++ id).data = _
  simp only [strData_append, List.append_assoc]
  rfl

theorem authorityKeyData (id : String) :
    (tckAuthority ++ "." ++ id).data
      = 'a' :: 'u' :: 't' :: 'h' :: 'o' :: 'r' :: 'i' :: 't' :: 'y' :: '.' :: id.data := by
  show (("authority" : String) ++ "." ++ id).data = _
  simp only [strData_append, List.append_assoc]
  rfl

theorem generateStateKey_eq (bcm : BrowserCacheManager) (s : String) (info : RequestStateObject)
    (h : parseRequestState s = some info) :
    generateStateKey bcm s
      = some (cachePrefixStr ++ "." ++ bcm.clientId ++ "."
          ++ (tckRequestState ++ "." ++ info.stateId)) := by
  unfold generateStateKey
  rw [h]
  show some (generateCacheKey bcm (tckRequestState ++ "." ++ info.stateId)) = _
  refine congrArg some ?_
  rw [generateCacheKey_of_parse_none _ _
    (parseJsonObj_eq_none_of_head 'r' _ _ (stateKeyData info.stateId) (by decide) (by decide))]
  rw [if_neg ?_]
  rw [Bool.or_eq_true]
  push_neg
  constructor
  · simp +decide [strStartsWith, stateKeyData, List.isPrefixOf]
  · simp +decide [strStartsWith, stateKeyData, List.isPrefixOf]

theorem generateNonceKey_eq (bcm : BrowserCacheManager) (s : String) (info : RequestStateObject)
    (h : parseRequestState s = some info) :
    generateNonceKey bcm s
      = some (cachePrefixStr ++ "." ++ bcm.clientId ++ "."
          ++ (tckNonceIdToken ++ "." ++ info.stateId)) := by
  unfold generateNonceKey
  rw [h]
  show some (generateCacheKey bcm (tckNonceIdToken ++ "." ++ info.stateId)) = _
  refine congrArg some ?_
  rw [generateCacheKey_of_parse_none _ _
    (parseJsonObj_eq_none_of_head 'n' _ _ (nonceKeyData info.stateId) (by decide) (by decide))]
  rw [if_neg ?_]
  rw [Bool.or_eq_true]
  push_neg
  constructor
  · simp +decide [strStartsWith, nonceKeyData, List.isPrefixOf]
  · simp +decide [strStartsWith, nonceKeyData, List.isPrefixOf]

theorem generateAuthorityKey_eq (bcm : BrowserCacheManager) (s : String) (info : RequestStateObject)
    (h : parseRequestState s = some info) :
    generateAuthorityKey bcm s
      = some (cachePrefixStr ++ "." ++ bcm.clientId ++ "."
          ++ (tckAuthority ++ "." ++ info.stateId)) := by
  unfold generateAuthorityKey
  rw [h]
  show some (generateCacheKey bcm (tckAuthority ++ "." ++ info.stateId)) = _
  refine congrArg some ?_
  rw [generateCacheKey_of_parse_none _ _
    (parseJsonObj_eq_none_of_head 'a' _ _ (authorityKeyData info.stateId) (by decide) (by decide))]
  rw [if_neg ?_]
  rw [Bool.or_eq_true]
  push_neg
  constructor
  · simp +decide [strStartsWith, authorityKeyData, List.isPrefixOf]
  · simp +decide [strStartsWith, authorityKeyData, List.isPrefixOf]

theorem appended_inj {a x y : String} (h : a ++ x = a ++ y) : x = y := by
  have hd := congrArg String.data h
  simp only [strData_append] at hd
  exact String.ext (List.append_cancel_left hd)

theorem string_ne_of_head {x y : String} {c c' : Char} {l l' : List Char}
    (hx : x.data = c :: l) (hy : y.data = c' :: l') (h : c ≠ c') : x ≠ y := by
  intro he
  rw [he, hy] at hx
  exact h ((List.cons.inj hx).1.symm)

/-- C8: the state, nonce and authority temporary-cache keys are namespaced by
the correlation id parsed out of the state's library-state component — any
state string carrying the same id yields the same keys, regardless of the
caller-supplied portion — and two requests with distinct embedded ids produce
pairwise disjoint key sets even when the caller-supplied state portions
coincide. -/
theorem claim_C8 (bcm : BrowserCacheManager) (s1 s2 : String) (i1 i2 : RequestStateObject)
    (h1 : parseRequestState s1 = some i1) (h2 : parseRequestState s2 = some i2)
    (hne : i1.stateId ≠ i2.stateId) :
    (∀ (s1' : String) (i1' : RequestStateObject),
      parseRequestState s1' = some i1' → i1'.stateId = i1.stateId →
      generateStateKey bcm s1' = generateStateKey bcm s1
      ∧ generateNonceKey bcm s1' = generateNonceKey bcm s1
      ∧ generateAuthorityKey bcm s1' = generateAuthorityKey bcm s1)
    ∧ generateStateKey bcm s1 ≠ generateStateKey bcm s2
    ∧ generateStateKey bcm s1 ≠ generateNonceKey bcm s2
    ∧ generateStateKey bcm s1 ≠ generateAuthorityKey bcm s2
    ∧ generateNonceKey bcm s1 ≠ generateStateKey bcm s2
    ∧ generateNonceKey bcm s1 ≠ generateNonceKey bcm s2
    ∧ generateNonceKey bcm s1 ≠ generateAuthorityKey bcm s2
    ∧ generateAuthorityKey bcm s1 ≠ generateStateKey bcm s2
    ∧ generateAuthorityKey bcm s1 ≠ generateNonceKey bcm s2
    ∧ generateAuthorityKey bcm s1 ≠ generateAuthorityKey bcm s2 := by
  rw [generateStateKey_eq bcm s1 i1 h1, generateNonceKey_eq bcm s1 i1 h1,
    generateAuthorityKey_eq bcm s1 i1 h1, generateStateKey_eq bcm s2 i2 h2,
    generateNonceKey_eq bcm s2 i2 h2, generateAuthorityKey_eq bcm s2 i2 h2]
  refine ⟨fun s1' i1' h1' hid => ?_,
    fun he => hne (appended_inj (appended_inj (Option.some.inj he))),
    fun he => string_ne_of_head (stateKeyData i1.stateId) (nonceKeyData i2.stateId)
      (by decide) (appended_inj (Option.some.inj he)),
    fun he => string_ne_of_head (stateKeyData i1.stateId) (authorityKeyData i2.stateId)
      (by decide) (appended_inj (Option.some.inj he)),
    fun he => string_ne_of_head (nonceKeyData i1.stateId) (stateKeyData i2.stateId)
      (by decide) (appended_inj (Option.some.inj he)),
    fun he => hne (appended_inj (appended_inj (Option.some.inj he))),
    fun he => string_ne_of_head (nonceKeyData i1.stateId) (authorityKeyData i2.stateId)
      (by decide) (appended_inj (Option.some.inj he)),
    fun he => string_ne_of_head (authorityKeyData i1.stateId) (stateKeyData i2.stateId)
      (by decide) (appended_inj (Option.some.inj he)),
    fun he => string_ne_of_head (authorityKeyData i1.stateId) (nonceKeyData i2.stateId)
      (by decide) (appended_inj (Option.some.inj he)),
    fun he => hne (appended_inj (appended_inj (Option.some.inj he)))⟩
  rw [generateStateKey_eq bcm s1' i1' h1', generateNonceKey_eq bcm s1' i1' h1',
    generateAuthorityKey_eq bcm s1' i1' h1', hid]
  exact ⟨rfl, rfl, rfl⟩

/-- Witness for C8 at two concrete states embedding distinct correlation ids
but identical caller-supplied portions. -/
theorem claim_C8_witness :
    generateStateKey ⟨"client-a", ⟨false⟩⟩ "id-1:redirect|caller-state"
      ≠ generateStateKey ⟨"client-a", ⟨false⟩⟩ "id-2:redirect|caller-state"
    ∧ generateStateKey ⟨"client-a", ⟨false⟩⟩ "id-1:redirect|caller-state"
      ≠ generateNonceKey ⟨"client-a", ⟨false⟩⟩ "id-2:redirect|caller-state" := by
  have h := claim_C8 ⟨"client-a", ⟨false⟩⟩ "id-1:redirect|caller-state"
    "id-2:redirect|caller-state" ⟨"id-1", "redirect", "caller-state"⟩
    ⟨"id-2", "redirect", "caller-state"⟩ (by decide) (by decide) (by decide)
  exact ⟨h.2.1, h.2.2.1⟩

/-- Abbreviation for the request-state temporary key of a correlation id. -/
def requestStateKeyFor (bcm : BrowserCacheManager) (id : String) : String :=
  cachePrefixStr ++ "." ++ bcm.clientId ++ "." ++ (tckRequestState ++ "." ++ id)

/-- Abbreviation for the nonce temporary key of a correlation id. -/
def nonceKeyFor (bcm : BrowserCacheManager) (id : String) : String :=
  cachePrefixStr ++ "." ++ bcm.clientId ++ "." ++ (tckNonceIdToken ++ "." ++ id)

/-- Abbreviation for the authority temporary key of a correlation id. -/
def authorityKeyFor (bcm : BrowserCacheManager) (id : String) : String :=
  cachePrefixStr ++ "." ++ bcm.clientId ++ "." ++ (tckAuthority ++ "." ++ id)

theorem parseRequestState_ne_empty {s : String} {info : RequestStateObject}
    (h : parseRequestState s = some info) : s ≠ "" := by
  intro he
  rw [he] at h
  exact Option.noConfusion h

theorem getItem_removeItem_frame (bcm : BrowserCacheManager) (st : CacheState)
    (k0 k : String) (h : k0 ≠ k) : getItem (removeItem bcm st k0) k = getItem st k := by
  show storeGet (removeItem bcm st k0).browserStorage k = _
  rw [removeItem_browserStorage]
  exact storeGet_remove_other st.browserStorage k0 k h

theorem getItem_removeItem_self (bcm : BrowserCacheManager) (st : CacheState)
    (k0 : String) : getItem (removeItem bcm st k0) k0 = none := by
  show storeGet (removeItem bcm st k0).browserStorage k0 = _
  rw [removeItem_browserStorage]
  exact storeGet_remove_self st.browserStorage k0

theorem getItem_removeItem_cases (bcm : BrowserCacheManager) (st : CacheState)
    (k0 k : String) :
    getItem (removeItem bcm st k0) k = getItem st k
    ∨ getItem (removeItem bcm st k0) k = none := by
  by_cases h : k0 = k
  · subst h
    exact Or.inr (getItem_removeItem_self bcm st k0)
  · exact Or.inl (getItem_removeItem_frame bcm st k0 k h)

theorem getItem_removeItem_none (bcm : BrowserCacheManager) (st : CacheState)
    (k0 k : String) (h : getItem st k = none) : getItem (removeItem bcm st k0) k = none := by
  rcases getItem_removeItem_cases bcm st k0 k with hc | hc
  · rw [hc, h]
  · exact hc

theorem sweepFold_frame (bcm : BrowserCacheManager) (state k : String)
    (hk : strContains k state = false) :
    ∀ (keys : List String) (st : CacheState),
      getItem (keys.foldl
        (fun acc key => if strContains key state then removeItem bcm acc key else acc) st) k
        = getItem st k := by
  intro keys
  induction keys with
  | nil => intro st; rfl
  | cons key rest ih =>
    intro st
    simp only [List.foldl_cons]
    rw [ih]
    by_cases hc : strContains key state
    · rw [if_pos hc]
      exact getItem_removeItem_frame bcm st key k
        (fun he => by rw [he] at hc; rw [hc] at hk; exact Bool.noConfusion hk)
    · rw [if_neg hc]

theorem sweepFold_cases (bcm : BrowserCacheManager) (state k : String) :
    ∀ (keys : List String) (st : CacheState),
      getItem (keys.foldl
        (fun acc key => if strContains key state then removeItem bcm acc key else acc) st) k
        = getItem st k
      ∨ getItem (keys.foldl
        (fun acc key => if strContains key state then removeItem bcm acc key else acc) st) k
        = none := by
  intro keys
  induction keys with
  | nil => intro st; exact Or.inl rfl
  | cons key rest ih =>
    intro st
    simp only [List.foldl_cons]
    by_cases hc : strContains key state
    · rw [if_pos hc]
      rcases ih (removeItem bcm st key) with h1 | h1
      · rcases getItem_removeItem_cases bcm st key k with h2 | h2
        · exact Or.inl (h1.trans h2)
        · exact Or.inr (h1.trans h2)
      · exact Or.inr h1
    · rw [if_neg hc]
      exact ih st

theorem subOccursIn_append (n : List Char) :
    ∀ pre : List Char, subOccursIn n (pre ++ n) = true := by
  intro pre
  induction pre with
  | nil =>
    cases n with
    | nil => rfl
    | cons c t =>
      show subOccursIn (c :: t) (c :: t) = true
      unfold subOccursIn
      simp [List.isPrefixOf_iff_prefix]
  | cons p rest ih =>
    show subOccursIn n (p :: (rest ++ n)) = true
    unfold subOccursIn
    rcases hn : rest ++ n with _ | ⟨c, t⟩
    · rw [← hn, ih]
      simp
    · rw [← hn, ih]
      simp

theorem strContains_requestStateKey (bcm : BrowserCacheManager) (id : String) :
    strContains (requestStateKeyFor bcm id) id = true := by
  unfold strContains requestStateKeyFor
  rw [strData_append, stateKeyData,
    show ('r' :: 'e' :: 'q' :: 'u' :: 'e' :: 's' :: 't' :: '.' :: 's' :: 't' :: 'a' :: 't' :: 'e'
        :: '.' :: id.data)
      = ['r', 'e', 'q', 'u', 'e', 's', 't', '.', 's', 't', 'a', 't', 'e', '.'] ++ id.data from rfl,
    ← List.append_assoc]
  exact subOccursIn_append id.data _

theorem strContains_nonceKey (bcm : BrowserCacheManager) (id : String) :
    strContains (nonceKeyFor bcm id) id = true := by
  unfold strContains nonceKeyFor
  rw [strData_append, nonceKeyData,
    show ('n' :: 'o' :: 'n' :: 'c' :: 'e' :: '.' :: 'i' :: 'd' :: '_' :: 't' :: 'o' :: 'k' :: 'e'
        :: 'n' :: '.' :: id.data)
      = ['n', 'o', 'n', 'c', 'e', '.', 'i', 'd', '_', 't', 'o', 'k', 'e', 'n', '.'] ++ id.data
      from rfl,
    ← List.append_assoc]
  exact subOccursIn_append id.data _

theorem strContains_authorityKey (bcm : BrowserCacheManager) (id : String) :
    strContains (authorityKeyFor bcm id) id = true := by
  unfold strContains authorityKeyFor
  rw [strData_append, authorityKeyData,
    show ('a' :: 'u' :: 't' :: 'h' :: 'o' :: 'r' :: 'i' :: 't' :: 'y' :: '.' :: id.data)
      = ['a', 'u', 't', 'h', 'o', 'r', 'i', 't', 'y', '.'] ++ id.data from rfl,
    ← List.append_assoc]
  exact subOccursIn_append id.data _

theorem stateKey_ne_nonceKey (bcm : BrowserCacheManager) (id id' : String) :
    requestStateKeyFor bcm id ≠ nonceKeyFor bcm id' :=
  fun he => string_ne_of_head (stateKeyData id) (nonceKeyData id') (by decide) (appended_inj he)

theorem stateKey_ne_authorityKey (bcm : BrowserCacheManager) (id id' : String) :
    requestStateKeyFor bcm id ≠ authorityKeyFor bcm id' :=
  fun he =>
    string_ne_of_head (stateKeyData id) (authorityKeyData id') (by decide) (appended_inj he)

theorem nonceKey_ne_authorityKey (bcm : BrowserCacheManager) (id id' : String) :
    nonceKeyFor bcm id ≠ authorityKeyFor bcm id' :=
  fun he =>
    string_ne_of_head (nonceKeyData id) (authorityKeyData id') (by decide) (appended_inj he)

theorem updateCacheEntries_eq (bcm : BrowserCacheManager) (st : CacheState)
    (state nonce auth : String) (info : RequestStateObject)
    (h : parseRequestState state = some info) :
    updateCacheEntries bcm st state nonce auth
      = some (setItem
          (setTemporaryCache bcm
            (setTemporaryCache bcm st (requestStateKeyFor bcm info.stateId) state false)
            (nonceKeyFor bcm info.stateId) nonce false)
          (authorityKeyFor bcm info.stateId) auth) := by
  unfold updateCacheEntries setAuthorityCache
  rw [generateStateKey_eq bcm state info h, generateNonceKey_eq bcm state info h,
    generateAuthorityKey_eq bcm state info h]
  rfl

theorem updated_browserStorage (bcm : BrowserCacheManager) (st : CacheState)
    (state nonce auth : String) (id : String) :
    (setItem
        (setTemporaryCache bcm
          (setTemporaryCache bcm st (requestStateKeyFor bcm id) state false)
          (nonceKeyFor bcm id) nonce false)
        (authorityKeyFor bcm id) auth).browserStorage
      = storeSet
          (storeSet (storeSet st.browserStorage (requestStateKeyFor bcm id) state)
            (nonceKeyFor bcm id) nonce)
          (authorityKeyFor bcm id) auth := by
  show storeSet (setTemporaryCache bcm
      (setTemporaryCache bcm st (requestStateKeyFor bcm id) state false)
      (nonceKeyFor bcm id) nonce false).browserStorage (authorityKeyFor bcm id) auth = _
  rw [setTemporaryCache_browserStorage, setTemporaryCache_browserStorage]
  simp

theorem getItem_updated_stateKey (bcm : BrowserCacheManager) (st : CacheState)
    (state nonce auth : String) (id : String) :
    getItem (setItem
        (setTemporaryCache bcm
          (setTemporaryCache bcm st (requestStateKeyFor bcm id) state false)
          (nonceKeyFor bcm id) nonce false)
        (authorityKeyFor bcm id) auth) (requestStateKeyFor bcm id) = some state := by
  show storeGet _ _ = _
  rw [updated_browserStorage]
  rw [storeGet_set_other _ _ _ _ (fun he => stateKey_ne_authorityKey bcm id id he.symm),
    storeGet_set_other _ _ _ _ (fun he => stateKey_ne_nonceKey bcm id id he.symm)]
  exact storeGet_set_self _ _ _

theorem getItem_updated_frame (bcm : BrowserCacheManager) (st : CacheState)
    (state nonce auth : String) (id : String) (k : String)
    (h1 : k ≠ requestStateKeyFor bcm id) (h2 : k ≠ nonceKeyFor bcm id)
    (h3 : k ≠ authorityKeyFor bcm id) :
    getItem (setItem
        (setTemporaryCache bcm
          (setTemporaryCache bcm st (requestStateKeyFor bcm id) state false)
          (nonceKeyFor bcm id) nonce false)
        (authorityKeyFor bcm id) auth) k = getItem st k := by
  show storeGet _ _ = _
  rw [updated_browserStorage]
  rw [storeGet_set_other _ _ _ _ (fun he => h3 he.symm),
    storeGet_set_other _ _ _ _ (fun he => h2 he.symm),
    storeGet_set_other _ _ _ _ (fun he => h1 he.symm)]
  rfl

/-- Any number of begin-request-style writes under one state: each element of
the list is the (nonce, authority) pair of one `updateCacheEntries` call. -/
def applyUpdates (bcm : BrowserCacheManager) (state : String) :
    CacheState → List (String × String) → Option CacheState
  | st, [] => some st
  | st, (nonce, authority) :: rest => do
    let st1 ← updateCacheEntries bcm st state nonce authority
    applyUpdates bcm state st1 rest

theorem applyUpdates_spec (bcm : BrowserCacheManager) (state : String)
    (info : RequestStateObject) (h : parseRequestState state = some info) :
    ∀ (writes : List (String × String)) (s0 st1 : CacheState),
      applyUpdates bcm state s0 writes = some st1 →
      (writes = [] → st1 = s0)
      ∧ (writes ≠ [] →
          getItem st1 (requestStateKeyFor bcm info.stateId) = some state)
      ∧ (∀ k, k ≠ requestStateKeyFor bcm info.stateId →
          k ≠ nonceKeyFor bcm info.stateId →
          k ≠ authorityKeyFor bcm info.stateId →
          getItem st1 k = getItem s0 k) := by
  intro writes
  induction writes with
  | nil =>
    intro s0 st1 happly
    refine ⟨fun _ => ?_, fun hcontra => absurd rfl hcontra, fun k _ _ _ => ?_⟩
    · exact (Option.some.inj happly).symm
    · rw [(Option.some.inj happly).symm]
  | cons w rest ih =>
    rcases w with ⟨nonce, auth⟩
    intro s0 st1 happly
    rw [show applyUpdates bcm state s0 ((nonce, auth) :: rest)
        = (updateCacheEntries bcm s0 state nonce auth).bind
            (fun st' => applyUpdates bcm state st' rest) from rfl,
      updateCacheEntries_eq bcm s0 state nonce auth info h, Option.some_bind] at happly
    have hspec := ih _ st1 happly
    refine ⟨fun hcontra => List.noConfusion hcontra, fun _ => ?_, fun k h1 h2 h3 => ?_⟩
    · rcases hrest : rest with _ | ⟨w2, rest2⟩
      · rw [hrest] at hspec
        rw [hspec.1 rfl]
        exact getItem_updated_stateKey bcm s0 state nonce auth info.stateId
      · rw [hrest] at hspec
        exact hspec.2.1 (List.cons_ne_nil _ _)
    · rw [hspec.2.2 k h1 h2 h3]
      exact getItem_updated_frame bcm s0 state nonce auth info.stateId k h1 h2 h3

/-- The four request-scoped fixed-key removals at the end of
`resetRequestCache`. -/
def fixedRemovals (bcm : BrowserCacheManager) (st : CacheState) : CacheState :=
  removeItem bcm
    (removeItem bcm
      (removeItem bcm
        (removeItem bcm st (generateCacheKey bcm tckRequestParams))
        (generateCacheKey bcm tckOriginUri))
      (generateCacheKey bcm tckUrlHash))
    (generateCacheKey bcm tckInteractionStatus)

theorem resetRequestCache_eq (bcm : BrowserCacheManager) (st : CacheState)
    (state : String) (info : RequestStateObject)
    (h : parseRequestState state = some info) :
    resetRequestCache bcm st state
      = some (fixedRemovals bcm
          (removeItem bcm
            (removeItem bcm
              (removeItem bcm
                ((getKeys st).foldl
                  (fun acc key =>
                    if strContains key state then removeItem bcm acc key else acc) st)
                (requestStateKeyFor bcm info.stateId))
              (nonceKeyFor bcm info.stateId))
            (authorityKeyFor bcm info.stateId))) := by
  have hne : state ≠ "" := parseRequestState_ne_empty h
  unfold resetRequestCache
  rw [if_neg hne, if_pos hne, generateStateKey_eq bcm state info h,
    generateNonceKey_eq bcm state info h, generateAuthorityKey_eq bcm state info h]
  rfl

theorem resetRequestCache_empty_eq (bcm : BrowserCacheManager) (st : CacheState) :
    resetRequestCache bcm st "" = some (fixedRemovals bcm st) := by
  unfold resetRequestCache
  rw [if_pos rfl, if_neg (fun hcontra => hcontra rfl)]
  rfl

theorem fixedRemovals_removed (bcm : BrowserCacheManager) (st : CacheState) :
    getItem (fixedRemovals bcm st) (generateCacheKey bcm tckRequestParams) = none
    ∧ getItem (fixedRemovals bcm st) (generateCacheKey bcm tckOriginUri) = none
    ∧ getItem (fixedRemovals bcm st) (generateCacheKey bcm tckUrlHash) = none
    ∧ getItem (fixedRemovals bcm st) (generateCacheKey bcm tckInteractionStatus) = none := by
  refine ⟨?_, ?_, ?_, ?_⟩
  · exact getItem_removeItem_none bcm _ _ _ (getItem_removeItem_none bcm _ _ _
      (getItem_removeItem_none bcm _ _ _ (getItem_removeItem_self bcm _ _)))
  · exact getItem_removeItem_none bcm _ _ _ (getItem_removeItem_none bcm _ _ _
      (getItem_removeItem_self bcm _ _))
  · exact getItem_removeItem_none bcm _ _ _ (getItem_removeItem_self bcm _ _)
  · exact getItem_removeItem_self bcm _ _

theorem fixedRemovals_none (bcm : BrowserCacheManager) (st : CacheState) (k : String)
    (h : getItem st k = none) : getItem (fixedRemovals bcm st) k = none :=
  getItem_removeItem_none bcm _ _ _ (getItem_removeItem_none bcm _ _ _
    (getItem_removeItem_none bcm _ _ _ (getItem_removeItem_none bcm _ _ _ h)))

theorem fixedRemovals_frame (bcm : BrowserCacheManager) (st : CacheState) (k : String)
    (h1 : k ≠ generateCacheKey bcm tckRequestParams)
    (h2 : k ≠ generateCacheKey bcm tckOriginUri)
    (h3 : k ≠ generateCacheKey bcm tckUrlHash)
    (h4 : k ≠ generateCacheKey bcm tckInteractionStatus) :
    getItem (fixedRemovals bcm st) k = getItem st k := by
  unfold fixedRemovals
  rw [getItem_removeItem_frame bcm _ _ _ (fun he => h4 he.symm),
    getItem_removeItem_frame bcm _ _ _ (fun he => h3 he.symm),
    getItem_removeItem_frame bcm _ _ _ (fun he => h2 he.symm),
    getItem_removeItem_frame bcm _ _ _ (fun he => h1 he.symm)]

theorem generateStateKey_eqK (bcm : BrowserCacheManager) (s : String)
    (info : RequestStateObject) (h : parseRequestState s = some info) :
    generateStateKey bcm s = some (requestStateKeyFor bcm info.stateId) :=
  generateStateKey_eq bcm s info h

/-- C6: for any number of prior begin-request writes (state, nonce, authority)
under one valid state's correlation id, on top of a base store holding no key
containing that id, the end-of-request cleanup `cleanRequestByState` (which
drives `resetRequestCache`) succeeds and leaves zero keys containing the id,
removes the four fixed-name temporary items, and leaves every entry whose key
contains neither the id nor the state string (and is none of the fixed keys)
exactly as it was in the base store — in particular the temporary entries of
every other correlation id. -/
theorem claim_C6 (bcm : BrowserCacheManager) (state : String) (info : RequestStateObject)
    (writes : List (String × String)) (s0 st1 : CacheState)
    (h : parseRequestState state = some info)
    (h0 : ∀ k, strContains k info.stateId = true → getItem s0 k = none)
    (happly : applyUpdates bcm state s0 writes = some st1) :
    ∃ st2, cleanRequestByState bcm st1 state = some st2
      ∧ (∀ k, strContains k info.stateId = true → getItem st2 k = none)
      ∧ getItem st2 (generateCacheKey bcm tckRequestParams) = none
      ∧ getItem st2 (generateCacheKey bcm tckOriginUri) = none
      ∧ getItem st2 (generateCacheKey bcm tckUrlHash) = none
      ∧ getItem st2 (generateCacheKey bcm tckInteractionStatus) = none
      ∧ (∀ k, strContains k info.stateId = false → strContains k state = false →
          k ≠ generateCacheKey bcm tckRequestParams →
          k ≠ generateCacheKey bcm tckOriginUri →
          k ≠ generateCacheKey bcm tckUrlHash →
          k ≠ generateCacheKey bcm tckInteractionStatus →
          getItem st2 k = getItem s0 k) := by
  have hne : state ≠ "" := parseRequestState_ne_empty h
  have hspec := applyUpdates_spec bcm state info h writes s0 st1 happly
  unfold cleanRequestByState
  rw [if_pos hne, generateStateKey_eqK bcm state info h]
  simp only [Option.bind_eq_bind, Option.some_bind]
  rcases writes with _ | ⟨w, rest⟩
  · have hst1 : st1 = s0 := hspec.1 rfl
    subst hst1
    rw [h0 _ (strContains_requestStateKey bcm info.stateId), Option.getD_none,
      resetRequestCache_empty_eq]
    exact ⟨fixedRemovals bcm st1, rfl,
      fun k hk => fixedRemovals_none bcm st1 k (h0 k hk),
      (fixedRemovals_removed bcm st1).1, (fixedRemovals_removed bcm st1).2.1,
      (fixedRemovals_removed bcm st1).2.2.1, (fixedRemovals_removed bcm st1).2.2.2,
      fun k _ _ h1 h2 h3 h4 => fixedRemovals_frame bcm st1 k h1 h2 h3 h4⟩
  · have hcached : getItem st1 (requestStateKeyFor bcm info.stateId) = some state :=
      hspec.2.1 (List.cons_ne_nil _ _)
    rw [hcached, Option.getD_some, resetRequestCache_eq bcm st1 state info h]
    refine ⟨_, rfl, fun k hk => ?_, (fixedRemovals_removed bcm _).1,
      (fixedRemovals_removed bcm _).2.1, (fixedRemovals_removed bcm _).2.2.1,
      (fixedRemovals_removed bcm _).2.2.2, fun k hkid hkstate h1 h2 h3 h4 => ?_⟩
    · refine fixedRemovals_none bcm _ k ?_
      by_cases hA : k = authorityKeyFor bcm info.stateId
      · subst hA
        exact getItem_removeItem_self bcm _ _
      · rw [getItem_removeItem_frame bcm _ _ _ (fun he => hA he.symm)]
        by_cases hN : k = nonceKeyFor bcm info.stateId
        · subst hN
          exact getItem_removeItem_self bcm _ _
        · rw [getItem_removeItem_frame bcm _ _ _ (fun he => hN he.symm)]
          by_cases hS : k = requestStateKeyFor bcm info.stateId
          · subst hS
            exact getItem_removeItem_self bcm _ _
          · rw [getItem_removeItem_frame bcm _ _ _ (fun he => hS he.symm)]
            rcases sweepFold_cases bcm state k (getKeys st1) st1 with hc | hc
            · rw [hc, hspec.2.2 k hS hN hA]
              exact h0 k hk
            · exact hc
    · have hkS : k ≠ requestStateKeyFor bcm info.stateId := fun he => by
        rw [he, strContains_requestStateKey bcm info.stateId] at hkid
        exact Bool.noConfusion hkid
      have hkN : k ≠ nonceKeyFor bcm info.stateId := fun he => by
        rw [he, strContains_nonceKey bcm info.stateId] at hkid
        exact Bool.noConfusion hkid
      have hkA : k ≠ authorityKeyFor bcm info.stateId := fun he => by
        rw [he, strContains_authorityKey bcm info.stateId] at hkid
        exact Bool.noConfusion hkid
      rw [fixedRemovals_frame bcm _ k h1 h2 h3 h4,
        getItem_removeItem_frame bcm _ _ _ (fun he => hkA he.symm),
        getItem_removeItem_frame bcm _ _ _ (fun he => hkN he.symm),
        getItem_removeItem_frame bcm _ _ _ (fun he => hkS he.symm),
        sweepFold_frame bcm state k hkstate (getKeys st1) st1,
        hspec.2.2 k hkS hkN hkA]

/-- Witness for C6: one begin-request write under id1 on top of a store
holding another correlation id's nonce entry; the cleanup leaves no key
containing id1, removes the fixed items, and leaves id2's entry readable. -/
theorem claim_C6_witness :
    ∃ st2, cleanRequestByState ⟨"cid", ⟨false⟩⟩
        ⟨[("msal.cid.authority.id1", "https://login.example.com/common/"),
          ("msal.cid.nonce.id_token.id1", "N1"),
          ("msal.cid.request.state.id1", "id1:redirect|user"),
          ("msal.cid.nonce.id_token.id2", "N2")], []⟩
        "id1:redirect|user" = some st2
      ∧ (∀ k, strContains k ("id1" : String) = true → getItem st2 k = none)
      ∧ getItem st2 (generateCacheKey ⟨"cid", ⟨false⟩⟩ tckRequestParams) = none
      ∧ getItem st2 (generateCacheKey ⟨"cid", ⟨false⟩⟩ tckOriginUri) = none
      ∧ getItem st2 (generateCacheKey ⟨"cid", ⟨false⟩⟩ tckUrlHash) = none
      ∧ getItem st2 (generateCacheKey ⟨"cid", ⟨false⟩⟩ tckInteractionStatus) = none
      ∧ (∀ k, strContains k ("id1" : String) = false →
          strContains k ("id1:redirect|user" : String) = false →
          k ≠ generateCacheKey ⟨"cid", ⟨false⟩⟩ tckRequestParams →
          k ≠ generateCacheKey ⟨"cid", ⟨false⟩⟩ tckOriginUri →
          k ≠ generateCacheKey ⟨"cid", ⟨false⟩⟩ tckUrlHash →
          k ≠ generateCacheKey ⟨"cid", ⟨false⟩⟩ tckInteractionStatus →
          getItem st2 k = getItem ⟨[("msal.cid.nonce.id_token.id2", "N2")], []⟩ k) := by
  refine claim_C6 ⟨"cid", ⟨false⟩⟩ "id1:redirect|user" ⟨"id1", "redirect", "user"⟩
    [("N1", "https://login.example.com/common/")]
    ⟨[("msal.cid.nonce.id_token.id2", "N2")], []⟩ _ (by decide) ?_ (by decide)
  intro k hk
  by_cases hk2 : ("msal.cid.nonce.id_token.id2" : String) = k
  · subst hk2
    exact absurd hk (by decide)
  · show storeGet [("msal.cid.nonce.id_token.id2", "N2")] k = none
    simp [storeGet, hk2]

theorem getAccount_congr {st st' : CacheState} {k : String}
    (h : getItem st k = getItem st' k) : getAccount st k = getAccount st' k := by
  unfold getAccount
  rw [h]

theorem getAppMetadata_congr {st st' : CacheState} {k : String}
    (h : getItem st k = getItem st' k) : getAppMetadata st k = getAppMetadata st' k := by
  unfold getAppMetadata
  rw [h]

theorem removeAllAccountsFold_frame (bcm : BrowserCacheManager) (k : String) :
    ∀ (keys : List String) (st st0 : CacheState),
      getItem st k = getItem st0 k → getAccount st0 k = none →
      getItem (keys.foldl
        (fun acc key => match getAccount acc key with
          | some _ => removeItem bcm acc key
          | none => acc) st) k = getItem st0 k := by
  intro keys
  induction keys with
  | nil => intro st st0 hsame _; exact hsame
  | cons key rest ih =>
    intro st st0 hsame hnone
    simp only [List.foldl_cons]
    rcases hstep : getAccount st key with _ | acct
    · exact ih st st0 hsame hnone
    · have hkne : key ≠ k := by
        intro he
        subst he
        rw [(getAccount_congr hsame).trans hnone] at hstep
        exact Option.noConfusion hstep
      exact ih _ st0 ((getItem_removeItem_frame bcm st key k hkne).trans hsame) hnone

theorem removeAppMetadataFold_frame (bcm : BrowserCacheManager) (k : String) :
    ∀ (keys : List String) (st st0 : CacheState),
      getItem st k = getItem st0 k → getAppMetadata st0 k = none →
      getItem (keys.foldl
        (fun acc key => match getAppMetadata acc key with
          | some _ => removeItem bcm acc key
          | none => acc) st) k = getItem st0 k := by
  intro keys
  induction keys with
  | nil => intro st st0 hsame _; exact hsame
  | cons key rest ih =>
    intro st st0 hsame hnone
    simp only [List.foldl_cons]
    rcases hstep : getAppMetadata st key with _ | m
    · exact ih st st0 hsame hnone
    · have hkne : key ≠ k := by
        intro he
        subst he
        rw [(getAppMetadata_congr hsame).trans hnone] at hstep
        exact Option.noConfusion hstep
      exact ih _ st0 ((getItem_removeItem_frame bcm st key k hkne).trans hsame) hnone

theorem clearSweep_frame (bcm : BrowserCacheManager) (k : String)
    (h1 : strContains k cachePrefixStr = false) (h2 : strContains k bcm.clientId = false) :
    ∀ (keys : List String) (st : CacheState),
      getItem (keys.foldl
        (fun acc cacheKey =>
          if containsKey acc cacheKey
              && (strContains cacheKey cachePrefixStr || strContains cacheKey bcm.clientId)
          then removeItem bcm acc cacheKey else acc) st) k = getItem st k := by
  intro keys
  induction keys with
  | nil => intro st; rfl
  | cons key rest ih =>
    intro st
    simp only [List.foldl_cons]
    rw [ih]
    by_cases hc : (containsKey st key
        && (strContains key cachePrefixStr || strContains key bcm.clientId)) = true
    · rw [if_pos hc]
      refine getItem_removeItem_frame bcm st key k ?_
      intro he
      subst he
      rw [h1, h2] at hc
      simp at hc
    · rw [if_neg hc]

/-- C10: `clear` leaves every entry unchanged whose key contains neither the
library cache marker nor the client id, provided its stored value is neither a
valid account entity nor a valid app-metadata entity (accounts and app
metadata being removed by the dedicated helpers the claim sets aside). -/
theorem claim_C10 (bcm : BrowserCacheManager) (st : CacheState) (k : String)
    (h1 : strContains k cachePrefixStr = false)
    (h2 : strContains k bcm.clientId = false)
    (hacct : getAccount st k = none)
    (hmeta : getAppMetadata st k = none) :
    getItem (clear bcm st) k = getItem st k := by
  unfold clear removeAllAccounts removeAppMetadata
  rw [clearSweep_frame bcm k h1 h2]
  have hstep1 : getItem ((getKeys st).foldl
      (fun acc key => match getAccount acc key with
        | some _ => removeItem bcm acc key
        | none => acc) st) k = getItem st k :=
    removeAllAccountsFold_frame bcm k (getKeys st) st st rfl hacct
  exact removeAppMetadataFold_frame bcm k _ _ _ hstep1 hmeta

/-- Witness for C10: a key without the cache marker or client id, holding a
non-entity value, survives `clear` unchanged. -/
theorem claim_C10_witness :
    getItem (clear ⟨"cid", ⟨false⟩⟩ ⟨[("unrelated-key", "hello"), ("msal.cid.x", "v")], []⟩)
        "unrelated-key"
      = getItem ⟨[("unrelated-key", "hello"), ("msal.cid.x", "v")], []⟩ "unrelated-key" :=
  claim_C10 ⟨"cid", ⟨false⟩⟩ ⟨[("unrelated-key", "hello"), ("msal.cid.x", "v")], []⟩
    "unrelated-key" (by decide) (by decide) (by decide) (by decide)
